import Mathlib

/- Shallow embedding of the mcp-ipfs MCP server (TypeScript sources:
   src/schemas.ts, src/utils.ts (runW3Command, parseNdJson), src/tool_handlers.ts,
   src/index.ts).  JavaScript strings are modeled as lists of characters.  The
   JavaScript builtins JSON.parse and the regular-expression engine are external
   to the repository and are abstracted as parameters of the embedding; the
   child_process executor is abstracted as an oracle mapping a full command line
   to its outcome.  Whitespace is modeled by Char.isWhitespace (covering the
   ASCII whitespace relevant to the CLI output handled here). -/

def isWs (c : Char) : Bool := c.isWhitespace

/- JavaScript String.prototype.trimStart on a list of characters. -/
def trimLeft (l : List Char) : List Char := l.dropWhile isWs

/- JavaScript String.prototype.trimEnd: remove the maximal whitespace suffix. -/
def trimRight : List Char → List Char
  | [] => []
  | c :: cs =>
    match trimRight cs with
    | [] => if isWs c then [] else [c]
    | r => c :: r

/- JavaScript String.prototype.trim. -/
def trimS (l : List Char) : List Char := trimRight (trimLeft l)

/- JavaScript String.prototype.split("\n"). -/
def splitNl : List Char → List (List Char)
  | [] => [[]]
  | c :: cs =>
    if c = '\n' then [] :: splitNl cs
    else
      match splitNl cs with
      | [] => [[c]]
      | l :: ls => (c :: l) :: ls

/- The filter predicate `line.trim() !== ""` used by parseNdJson. -/
def nonBlank (l : List Char) : Bool := !(trimS l).isEmpty

/- JavaScript String.prototype.startsWith, as a boolean on character lists. -/
def isPrefOf : List Char → List Char → Bool
  | [], _ => true
  | _ :: _, [] => false
  | a :: as, b :: bs => a == b && isPrefOf as bs

/- Substring occurrence test (used to state what an error message contains). -/
def containsSub (pat : List Char) : List Char → Bool
  | [] => pat.isEmpty
  | c :: cs => isPrefOf pat (c :: cs) || containsSub pat cs

/- JavaScript String.prototype.split(/\s+/) restricted to its use sites:
   the handlers only apply it to trimmed, non-empty lines, where it returns
   the maximal runs of non-whitespace characters, in order. -/
def splitWsGo : List Char → List Char → List (List Char)
  | acc, [] => if acc.isEmpty then [] else [acc.reverse]
  | acc, c :: cs =>
    if isWs c then
      if acc.isEmpty then splitWsGo [] cs else acc.reverse :: splitWsGo [] cs
    else splitWsGo (c :: acc) cs

def splitWs (l : List Char) : List (List Char) := splitWsGo [] l

/- JavaScript Array.prototype.join(" "). -/
def joinSp : List (List Char) → List Char
  | [] => []
  | [x] => x
  | x :: xs => x ++ ' ' :: joinSp xs

/- JSON values, the data model of the tool arguments and of parsed CLI output. -/
inductive Json where
  | null
  | bool (b : Bool)
  | num (n : Int)
  | str (s : List Char)
  | arr (elems : List Json)
  | obj (fields : List (List Char × Json))

/- First-match key lookup in a JSON object (JavaScript property access). -/
def jlookup (kvs : List (List Char × Json)) (k : List Char) : Option Json :=
  match kvs with
  | [] => none
  | (k2, v) :: rest => if k2 = k then some v else jlookup rest k

/- Outcome of executing a full command line via child_process exec:
   either captured stdout/stderr, or a rejection carrying the error message
   and the stderr captured on the error object ([] models a falsy stderr). -/
inductive ExecResult where
  | success (stdout stderr : List Char)
  | failure (message : List Char) (stderr : List Char)

def sW3Sp : List Char := "w3 ".data
def sFail1 : List Char := "Failed to execute \x27w3 ".data
def sFail2 : List Char := "\x27: ".data
def sStderrNl : List Char := "\nStderr: ".data

/- utils.ts runW3Command: prepend "w3 ", run, and on failure wrap the message,
   appending the captured stderr when it is non-empty (truthy).  On success it
   returns the untrimmed stdout/stderr pair. -/
def runW3Command (exec : List Char → ExecResult) (command : List Char) :
    Except (List Char) (List Char × List Char) :=
  match exec (sW3Sp ++ command) with
  | .success o e => .ok (o, e)
  | .failure msg st =>
    .error (sFail1 ++ command ++ sFail2 ++
      (if st.isEmpty then msg else msg ++ sStderrNl ++ st))

def sLog1 : List Char := "Failed to parse NDJSON line #".data
def sLog2 : List Char := ". Error: ".data
def sLog3 : List Char := ". Line content: \"".data
def sQuote : List Char := "\"".data
def sDots : List Char := "...".data
def sOuter1 : List Char := "Failed to parse NDJSON output. Error: ".data
def sOuter2 : List Char := ". Please check w3cli output format.".data

/- line.substring(0, 100) followed by "..." when the line is longer. -/
def jsTrunc (line : List Char) : List Char :=
  line.take 100 ++ (if 100 < line.length then sDots else [])

/- The logger.error text emitted for a failing NDJSON line (0-based index). -/
def mkLineLog (idx : Nat) (line e : List Char) : List Char :=
  sLog1 ++ (Nat.repr (idx + 1)).data ++ sLog2 ++ e ++ sLog3 ++ jsTrunc line ++ sQuote

/- The message of the Error finally thrown by parseNdJson. -/
def mkOuterMsg (e : List Char) : List Char := sOuter1 ++ e ++ sOuter2

/- A parseNdJson failure: the inner logger.error text for the offending line,
   and the message of the Error rethrown through the outer catch. -/
structure NdFailure where
  lineLog : List Char
  outerMsg : List Char

/- The indexed map of utils.ts parseNdJson: JSON.parse each line, aborting at
   the first failure (Array.prototype.map propagates the thrown exception). -/
def parseLines (jp : List Char → Except (List Char) Json) :
    Nat → List (List Char) → Except NdFailure (List Json)
  | _, [] => .ok []
  | i, l :: ls =>
    match jp l with
    | .error e => .error ⟨mkLineLog i l e, mkOuterMsg e⟩
    | .ok v =>
      match parseLines jp (i + 1) ls with
      | .error f => .error f
      | .ok vs => .ok (v :: vs)

/- utils.ts parseNdJson: trim, split on newlines, drop blank lines, JSON.parse
   each remaining line in order.  jp abstracts the JSON.parse builtin. -/
def parseNdJson (jp : List Char → Except (List Char) Json) (nd : List Char) :
    Except NdFailure (List Json) :=
  parseLines jp 0 ((splitNl (trimS nd)).filter nonBlank)

/- One record of the w3_space_ls response. -/
structure SpaceEntry where
  did : List Char
  name : Option (List Char)
  isCurrent : Bool
deriving DecidableEq

def sStar : List Char := "*".data
def sDidKey : List Char := "did:key:".data

/- The token/DID extraction of handleW3SpaceLs applied to the line after the
   optional leading "*" has been removed (tool_handlers.ts lines 58-64):
   split on whitespace runs, take the first token as the DID and the joined
   remainder as the name, and keep the record only when the DID is truthy and
   starts with "did:key:". -/
def entryCore (isCur : Bool) (t2 : List Char) : Option SpaceEntry :=
  let parts := splitWs t2
  let did := parts.headD []
  let name := if 1 < parts.length then some (joinSp parts.tail) else none
  if !did.isEmpty && isPrefOf sDidKey did then some ⟨did, name, isCur⟩ else none

/- The per-line body of the handleW3SpaceLs loop: trim, skip blank lines, and
   treat a leading "*" as marking the current space, stripping it (and any
   whitespace after it) before extracting DID and name. -/
def spaceEntryOfLine (line : List Char) : Option SpaceEntry :=
  let t := trimS line
  if t.isEmpty then none
  else if isPrefOf sStar t then entryCore true (trimS (t.drop 1))
  else entryCore false t

/- The whole stdout-to-records loop of handleW3SpaceLs. -/
def parseSpaces (stdout : List Char) : List SpaceEntry :=
  (splitNl (trimS stdout)).filterMap spaceEntryOfLine

/- Tool argument bags: CallToolRequest params.arguments, possibly undefined. -/
def exOk {e a : Type} (x : Except e a) : Bool :=
  match x with
  | .ok _ => true
  | .error _ => false

/- zod z.object: requires a JSON object (undefined and non-objects fail),
   unknown keys are ignored (zod default strip mode). -/
def withObj {a : Type} (args : Option Json)
    (f : List (List Char × Json) → Except Unit a) : Except Unit a :=
  match args with
  | some (Json.obj kvs) => f kvs
  | _ => .error ()

def reqStrF (kvs : List (List Char × Json)) (k : List Char) :
    Except Unit (List Char) :=
  match jlookup kvs k with
  | some (Json.str s) => .ok s
  | _ => .error ()

def reqStrPrefF (kvs : List (List Char × Json)) (k pre : List Char) :
    Except Unit (List Char) :=
  match jlookup kvs k with
  | some (Json.str s) => if isPrefOf pre s then .ok s else .error ()
  | _ => .error ()

def optStrF (kvs : List (List Char × Json)) (k : List Char) :
    Except Unit (Option (List Char)) :=
  match jlookup kvs k with
  | none => .ok none
  | some (Json.str s) => .ok (some s)
  | some _ => .error ()

def optStrPrefF (kvs : List (List Char × Json)) (k pre : List Char) :
    Except Unit (Option (List Char)) :=
  match jlookup kvs k with
  | none => .ok none
  | some (Json.str s) => if isPrefOf pre s then .ok (some s) else .error ()
  | some _ => .error ()

def boolDF (kvs : List (List Char × Json)) (k : List Char) (d : Bool) :
    Except Unit Bool :=
  match jlookup kvs k with
  | none => .ok d
  | some (Json.bool b) => .ok b
  | some _ => .error ()

def asStr : Json → Except Unit (List Char)
  | Json.str s => .ok s
  | _ => .error ()

/- z.array(z.string()).min(1). -/
def strArrMin1F (kvs : List (List Char × Json)) (k : List Char) :
    Except Unit (List (List Char)) :=
  match jlookup kvs k with
  | some (Json.arr xs) =>
    match xs.mapM asStr with
    | .ok ss => if ss.isEmpty then .error () else .ok ss
    | .error _ => .error ()
  | _ => .error ()

/- z.number().int().positive().optional() (fractional numbers are outside the
   modeled value space; .int() is vacuous there). -/
def optPosIntF (kvs : List (List Char × Json)) (k : List Char) :
    Except Unit (Option Int) :=
  match jlookup kvs k with
  | none => .ok none
  | some (Json.num n) => if 0 < n then .ok (some n) else .error ()
  | some _ => .error ()

def optEnumF (kvs : List (List Char × Json)) (k : List Char)
    (choices : List (List Char)) : Except Unit (Option (List Char)) :=
  match jlookup kvs k with
  | none => .ok none
  | some (Json.str s) => if choices.contains s then .ok (some s) else .error ()
  | some _ => .error ()

def litStrF (kvs : List (List Char × Json)) (k v : List Char) :
    Except Unit Unit :=
  match jlookup kvs k with
  | some (Json.str s) => if s = v then .ok () else .error ()
  | _ => .error ()

def kSpaceDid : List Char := "spaceDid".data
def kName : List Char := "name".data
def kPaths : List Char := "paths".data
def kNoWrap : List Char := "noWrap".data
def kHidden : List Char := "hidden".data
def kJson : List Char := "json".data
def kCid : List Char := "cid".data
def kRemoveShards : List Char := "removeShards".data
def kPath : List Char := "path".data
def kProof : List Char := "proof".data
def kAudienceDid : List Char := "audienceDid".data
def kCapabilities : List Char := "capabilities".data
def kType : List Char := "type".data
def kOutputArg : List Char := "output".data
def kBase64 : List Char := "base64".data
def kDelegationCid : List Char := "delegationCid".data
def kProofPath : List Char := "proofPath".data
def kExpiration : List Char := "expiration".data
def kSize : List Char := "size".data
def kCursor : List Char := "cursor".data
def kMultihash : List Char := "multihash".data
def kRootCid : List Char := "rootCid".data
def kShardCids : List Char := "shardCids".data
def kShards : List Char := "shards".data
def kPre : List Char := "pre".data
def kAccountId : List Char := "accountId".data
def kCustomerId : List Char := "customerId".data
def kClaimCode : List Char := "claimCode".data
def kCarCid : List Char := "carCid".data
def kPieceCid : List Char := "pieceCid".data
def kConfirmReset : List Char := "confirmReset".data

def enumAudType : List (List Char) := ["device".data, "app".data, "service".data]
def sYesSure : List Char := "yes-i-am-sure".data

/- Validators, one per exported zod schema in schemas.ts. -/
def vW3Login (a : Option Json) : Except Unit Unit := withObj a (fun _ => .ok ())
def vW3SpaceLs (a : Option Json) : Except Unit Unit := withObj a (fun _ => .ok ())
def vW3SpaceUse (a : Option Json) : Except Unit (List Char) :=
  withObj a (fun o => reqStrPrefF o kSpaceDid sDidKey)
def vW3SpaceCreate (a : Option Json) : Except Unit (Option (List Char)) :=
  withObj a (fun o => optStrF o kName)
def vW3Up (a : Option Json) : Except Unit (List (List Char) × Bool × Bool) :=
  withObj a (fun o => do
    let paths ← strArrMin1F o kPaths
    let noWrap ← boolDF o kNoWrap false
    let hidden ← boolDF o kHidden false
    pure (paths, noWrap, hidden))
def vW3Ls (a : Option Json) : Except Unit Bool :=
  withObj a (fun o => boolDF o kJson true)
def vW3Rm (a : Option Json) : Except Unit (List Char × Bool) :=
  withObj a (fun o => do
    let cid ← reqStrF o kCid
    let rs ← boolDF o kRemoveShards false
    pure (cid, rs))
def vW3Open (a : Option Json) : Except Unit (List Char × Option (List Char)) :=
  withObj a (fun o => do
    let cid ← reqStrF o kCid
    let p ← optStrF o kPath
    pure (cid, p))
def vW3SpaceInfo (a : Option Json) : Except Unit (Option (List Char) × Bool) :=
  withObj a (fun o => do
    let sd ← optStrPrefF o kSpaceDid sDidKey
    let j ← boolDF o kJson true
    pure (sd, j))
def vW3SpaceAdd (a : Option Json) : Except Unit (List Char) :=
  withObj a (fun o => reqStrF o kProof)
def vW3DelegationCreate (a : Option Json) :
    Except Unit (List Char × List (List Char) × Option (List Char) ×
      Option (List Char) × Option (List Char) × Bool) :=
  withObj a (fun o => do
    let aud ← reqStrF o kAudienceDid
    let caps ← strArrMin1F o kCapabilities
    let nm ← optStrF o kName
    let ty ← optEnumF o kType enumAudType
    let outp ← optStrF o kOutputArg
    let b64 ← boolDF o kBase64 false
    pure (aud, caps, nm, ty, outp, b64))
def vW3DelegationLs (a : Option Json) : Except Unit Bool :=
  withObj a (fun o => boolDF o kJson true)
def vW3DelegationRevoke (a : Option Json) :
    Except Unit (List Char × Option (List Char)) :=
  withObj a (fun o => do
    let dc ← reqStrF o kDelegationCid
    let pr ← optStrF o kProof
    pure (dc, pr))
def vW3ProofAdd (a : Option Json) : Except Unit (List Char) :=
  withObj a (fun o => reqStrF o kProofPath)
def vW3ProofLs (a : Option Json) : Except Unit Bool :=
  withObj a (fun o => boolDF o kJson true)
def vW3KeyCreate (a : Option Json) : Except Unit Bool :=
  withObj a (fun o => boolDF o kJson false)
def vW3BridgeGenerateTokens (a : Option Json) :
    Except Unit (List (List Char) × Option Int × Bool) :=
  withObj a (fun o => do
    let caps ← strArrMin1F o kCapabilities
    let exp ← optPosIntF o kExpiration
    let j ← boolDF o kJson true
    pure (caps, exp, j))
def vW3CanBlobAdd (a : Option Json) : Except Unit (List Char) :=
  withObj a (fun o => reqStrF o kPath)
def vW3CanBlobLs (a : Option Json) :
    Except Unit (Bool × Option Int × Option (List Char)) :=
  withObj a (fun o => do
    let j ← boolDF o kJson true
    let sz ← optPosIntF o kSize
    let cur ← optStrF o kCursor
    pure (j, sz, cur))
def vW3CanBlobRm (a : Option Json) : Except Unit (List Char) :=
  withObj a (fun o => reqStrF o kMultihash)
def vW3CanIndexAdd (a : Option Json) : Except Unit (List Char) :=
  withObj a (fun o => reqStrF o kCid)
def vW3CanUploadAdd (a : Option Json) :
    Except Unit (List Char × List (List Char)) :=
  withObj a (fun o => do
    let rc ← reqStrF o kRootCid
    let sc ← strArrMin1F o kShardCids
    pure (rc, sc))
def vW3CanUploadLs (a : Option Json) :
    Except Unit (Bool × Bool × Option Int × Option (List Char) × Bool) :=
  withObj a (fun o => do
    let j ← boolDF o kJson true
    let sh ← boolDF o kShards false
    let sz ← optPosIntF o kSize
    let cur ← optStrF o kCursor
    let pr ← boolDF o kPre false
    pure (j, sh, sz, cur, pr))
def vW3CanUploadRm (a : Option Json) : Except Unit (List Char) :=
  withObj a (fun o => reqStrF o kRootCid)
def vW3PlanGet (a : Option Json) : Except Unit (Option (List Char)) :=
  withObj a (fun o => optStrF o kAccountId)
def vW3AccountLs (a : Option Json) : Except Unit Unit := withObj a (fun _ => .ok ())
def vW3SpaceProvision (a : Option Json) : Except Unit (List Char × List Char) :=
  withObj a (fun o => do
    let cust ← reqStrF o kCustomerId
    let sd ← reqStrPrefF o kSpaceDid sDidKey
    pure (cust, sd))
def vW3CouponCreate (a : Option Json) : Except Unit (List Char) :=
  withObj a (fun o => reqStrF o kClaimCode)
def vW3UsageReport (a : Option Json) : Except Unit (Option (List Char) × Bool) :=
  withObj a (fun o => do
    let sd ← optStrPrefF o kSpaceDid sDidKey
    let j ← boolDF o kJson true
    pure (sd, j))
def vW3CanAccessClaim (a : Option Json) : Except Unit (List Char) :=
  withObj a (fun o => reqStrF o kProof)
def vW3CanStoreAdd (a : Option Json) : Except Unit (List Char) :=
  withObj a (fun o => reqStrF o kPath)
def vW3CanStoreLs (a : Option Json) :
    Except Unit (Bool × Option Int × Option (List Char)) :=
  withObj a (fun o => do
    let j ← boolDF o kJson true
    let sz ← optPosIntF o kSize
    let cur ← optStrF o kCursor
    pure (j, sz, cur))
def vW3CanStoreRm (a : Option Json) : Except Unit (List Char) :=
  withObj a (fun o => reqStrF o kCarCid)
def vW3CanFilecoinInfo (a : Option Json) : Except Unit (List Char) :=
  withObj a (fun o => reqStrF o kPieceCid)
def vW3Reset (a : Option Json) : Except Unit Unit :=
  withObj a (fun o => litStrF o kConfirmReset sYesSure)

/- The ambient JavaScript world a handler runs in: the subprocess executor,
   the JSON.parse builtin, the regex match of handleW3CanBlobAdd
   (/Stored\s+(\S+)\s+\((\S+)\)/, returning the two captures), and the
   W3_LOGIN_EMAIL environment variable (checked at startup). -/
structure World where
  exec : List Char → ExecResult
  jp : List Char → Except (List Char) Json
  matchStored : List Char → Option (List Char × List Char)
  loginEmail : List Char

/- What one handler invocation produces: the response (the object passed to
   JSON.stringify on success, or the thrown error message), together with the
   list of subcommands passed to runW3Command, in call order. -/
structure HandlerOut where
  result : Except (List Char) Json
  commands : List (List Char)

def isErrResult (h : HandlerOut) : Bool :=
  match h.result with
  | .error _ => true
  | .ok _ => false

/- The shared shape of the validating handlers in tool_handlers.ts:
   safeParse the arguments (throwing before any subprocess on failure), build
   the subcommand from the parsed data, run it once via runW3Command, and
   shape the response from the captured stdout.  The zod error text inside the
   thrown message is abstracted. -/
def stdTool {a : Type} (v : Option Json → Except Unit a) (m : List Char)
    (cmd : a → List Char) (k : World → a → List Char → Except (List Char) Json)
    (w : World) (args : Option Json) : HandlerOut :=
  match v args with
  | .error _ => ⟨.error m, []⟩
  | .ok d =>
    match runW3Command w.exec (cmd d) with
    | .error e => ⟨.error e, [cmd d]⟩
    | .ok (out, _) => ⟨k w d out, [cmd d]⟩

def sInvalidPre : List Char := "Invalid arguments for ".data
def mInvalid (toolName : List Char) : List Char := sInvalidPre ++ toolName

def kMessage : List Char := "message".data
def kOutput : List Char := "output".data
def kUrl : List Char := "url".data
def kSpaces : List Char := "spaces".data
def kDid : List Char := "did".data
def kIsCurrent : List Char := "isCurrent".data
def kUploads : List Char := "uploads".data
def kDelegations : List Char := "delegations".data
def kProofs : List Char := "proofs".data
def kKeyData : List Char := "keyData".data
def kTokenData : List Char := "tokenData".data
def kBlobs : List Char := "blobs".data
def kStores : List Char := "stores".data
def kSpaceInfoK : List Char := "spaceInfo".data
def kPlanData : List Char := "planData".data
def kAccounts : List Char := "accounts".data
def kUsageReportK : List Char := "usageReport".data
def kFilecoinInfo : List Char := "filecoinInfo".data

/- { message, output: stdout.trim() }, the most common response shape. -/
def msgOutResp (m out : List Char) : Json :=
  Json.obj [(kMessage, Json.str m), (kOutput, Json.str (trimS out))]

/- { output: stdout.trim() }. -/
def outResp (out : List Char) : Json :=
  Json.obj [(kOutput, Json.str (trimS out))]

/- NDJSON-list responses ({ <key>: [...] }); a parse failure propagates the
   thrown Error of parseNdJson. -/
def ndListResp (w : World) (key out : List Char) : Except (List Char) Json :=
  match parseNdJson w.jp out with
  | .error f => .error f.outerMsg
  | .ok xs => .ok (Json.obj [(key, Json.arr xs)])

/- JSON.stringify drops undefined fields, so a record with no name serializes
   without the "name" key. -/
def spaceJson (e : SpaceEntry) : Json :=
  Json.obj ((kDid, Json.str e.did) ::
    (match e.name with
     | some n => [(kName, Json.str n)]
     | none => []) ++ [(kIsCurrent, Json.bool e.isCurrent)])

def sw3_login : List Char := "w3_login".data
def sw3_space_ls : List Char := "w3_space_ls".data
def sw3_space_use : List Char := "w3_space_use".data
def sw3_space_create : List Char := "w3_space_create".data
def sw3_up : List Char := "w3_up".data
def sw3_ls : List Char := "w3_ls".data
def sw3_rm : List Char := "w3_rm".data
def sw3_open : List Char := "w3_open".data
def sw3_space_info : List Char := "w3_space_info".data
def sw3_space_add : List Char := "w3_space_add".data
def sw3_delegation_create : List Char := "w3_delegation_create".data
def sw3_delegation_ls : List Char := "w3_delegation_ls".data
def sw3_delegation_revoke : List Char := "w3_delegation_revoke".data
def sw3_proof_add : List Char := "w3_proof_add".data
def sw3_proof_ls : List Char := "w3_proof_ls".data
def sw3_key_create : List Char := "w3_key_create".data
def sw3_bridge_generate_tokens : List Char := "w3_bridge_generate_tokens".data
def sw3_can_blob_add : List Char := "w3_can_blob_add".data
def sw3_can_blob_ls : List Char := "w3_can_blob_ls".data
def sw3_can_blob_rm : List Char := "w3_can_blob_rm".data
def sw3_can_index_add : List Char := "w3_can_index_add".data
def sw3_can_upload_add : List Char := "w3_can_upload_add".data
def sw3_can_upload_ls : List Char := "w3_can_upload_ls".data
def sw3_can_upload_rm : List Char := "w3_can_upload_rm".data
def sw3_plan_get : List Char := "w3_plan_get".data
def sw3_account_ls : List Char := "w3_account_ls".data
def sw3_space_provision : List Char := "w3_space_provision".data
def sw3_coupon_create : List Char := "w3_coupon_create".data
def sw3_usage_report : List Char := "w3_usage_report".data
def sw3_can_access_claim : List Char := "w3_can_access_claim".data
def sw3_can_store_add : List Char := "w3_can_store_add".data
def sw3_can_store_ls : List Char := "w3_can_store_ls".data
def sw3_can_store_rm : List Char := "w3_can_store_rm".data
def sw3_can_filecoin_info : List Char := "w3_can_filecoin_info".data
def sw3_reset : List Char := "w3_reset".data

def sLogin : List Char := "login ".data
def sSpaceLs : List Char := "space ls".data
def sSpaceUse : List Char := "space use ".data
def sUp : List Char := "up ".data
def sNoWrap : List Char := " --no-wrap".data
def sHidden : List Char := " --hidden".data
def sLsJson : List Char := "ls --json".data
def sLs : List Char := "ls".data
def sRm : List Char := "rm ".data
def sShardsFlag : List Char := " --shards".data
def sSpaceInfoCmd : List Char := "space info".data
def sSpaceFlag : List Char := " --space ".data
def sJsonFlag : List Char := " --json".data
def sSpaceAdd : List Char := "space add \"".data
def sDq : List Char := "\"".data
def sSlash : List Char := "/".data
def sBaseUrl : List Char := "https://w3s.link/ipfs/".data
def sDelegCreate : List Char := "delegation create ".data
def sCanFlagPre : List Char := " --can \x27".data
def sSq : List Char := "\x27".data
def sNameFlag : List Char := " --name \"".data
def sTypeFlag : List Char := " --type ".data
def sOutputFlag : List Char := " --output \"".data
def sB64Flag : List Char := " --base64".data
def sDelegLsJson : List Char := "delegation ls --json".data
def sDelegLs : List Char := "delegation ls".data
def sDelegRevoke : List Char := "delegation revoke ".data
def sProofFlag : List Char := " --proof \"".data
def sProofAdd : List Char := "proof add \"".data
def sProofLsJson : List Char := "proof ls --json".data
def sProofLs : List Char := "proof ls".data
def sKeyCreateJson : List Char := "key create --json".data
def sKeyCreate : List Char := "key create".data
def sBridgeCmd : List Char := "bridge generate-tokens".data
def sExpFlag : List Char := " --expiration ".data
def sCanBlobAdd : List Char := "can blob add \"".data
def sCanBlobLs : List Char := "can blob ls".data
def sSizeFlag : List Char := " --size ".data
def sCursorFlag : List Char := " --cursor ".data
def sCanBlobRm : List Char := "can blob rm ".data
def sCanIndexAdd : List Char := "can index add ".data
def sCanUploadAdd : List Char := "can upload add ".data
def sSp : List Char := " ".data
def sCanUploadLs : List Char := "can upload ls".data
def sPreFlag : List Char := " --pre".data
def sCanUploadRm : List Char := "can upload rm ".data
def sPlanGet : List Char := "plan get".data
def sAccountFlag : List Char := " --account ".data
def sAccountLs : List Char := "account ls".data
def sSpaceProvision : List Char := "space provision ".data
def sCouponCreate : List Char := "coupon create ".data
def sUsageReport : List Char := "usage report".data
def sCanAccessClaim : List Char := "can access claim \"".data
def sCanStoreAdd : List Char := "can store add \"".data
def sCanStoreLs : List Char := "can store ls".data
def sCanStoreRm : List Char := "can store rm ".data
def sCanFilecoinInfo : List Char := "can filecoin info ".data
def sReset : List Char := "reset".data

/- `if (b) command += flag` for booleans. -/
def boolFlag (b : Bool) (f : List Char) : List Char := if b then f else []

/- `if (x) command += pre + x + suf` for optional strings (JS truthiness:
   an empty string adds nothing). -/
def optStrFlag (pre suf : List Char) (o : Option (List Char)) : List Char :=
  match o with
  | some s => if s.isEmpty then [] else pre ++ s ++ suf
  | none => []

/- `if (n) command += pre + n` for optional numbers (0 is falsy). -/
def optNumFlag (pre : List Char) (o : Option Int) : List Char :=
  match o with
  | some n => if n = 0 then [] else pre ++ (Int.repr n).data
  | none => []

/- `if (expiration !== undefined) command += ...`: an explicit undefined
   check, not truthiness. -/
def optNumFlagDefined (pre : List Char) (o : Option Int) : List Char :=
  match o with
  | some n => pre ++ (Int.repr n).data
  | none => []

/- capabilities.forEach(cap => command += ` --can '${cap}'`). -/
def canFlags (caps : List (List Char)) : List Char :=
  (caps.map (fun c => sCanFlagPre ++ c ++ sSq)).flatten

/- `"${p}"`. -/
def quoteArg (s : List Char) : List Char := sDq ++ s ++ sDq

/- A JS template literal on a possibly-undefined value prints "undefined". -/
def jsUndef (o : Option (List Char)) : List Char :=
  match o with
  | some s => s
  | none => "undefined".data

/- Subcommand builders, one per handler, from the validated data. -/
def cmdUp (d : List (List Char) × Bool × Bool) : List Char :=
  sUp ++ joinSp (d.1.map quoteArg) ++ boolFlag d.2.1 sNoWrap ++ boolFlag d.2.2 sHidden
def cmdLs (j : Bool) : List Char := if j then sLsJson else sLs
def cmdRm (d : List Char × Bool) : List Char :=
  sRm ++ d.1 ++ boolFlag d.2 sShardsFlag
def cmdSpaceUse (s : List Char) : List Char := sSpaceUse ++ s
def cmdSpaceInfo (d : Option (List Char) × Bool) : List Char :=
  sSpaceInfoCmd ++ optStrFlag sSpaceFlag [] d.1 ++ boolFlag d.2 sJsonFlag
def cmdSpaceAdd (p : List Char) : List Char := sSpaceAdd ++ p ++ sDq
def cmdDelegCreate
    (d : List Char × List (List Char) × Option (List Char) ×
      Option (List Char) × Option (List Char) × Bool) : List Char :=
  sDelegCreate ++ d.1 ++ canFlags d.2.1 ++ optStrFlag sNameFlag sDq d.2.2.1 ++
    optStrFlag sTypeFlag [] d.2.2.2.1 ++ optStrFlag sOutputFlag sDq d.2.2.2.2.1 ++
    boolFlag d.2.2.2.2.2 sB64Flag
def cmdDelegLs (j : Bool) : List Char := if j then sDelegLsJson else sDelegLs
def cmdDelegRevoke (d : List Char × Option (List Char)) : List Char :=
  sDelegRevoke ++ d.1 ++ optStrFlag sProofFlag sDq d.2
def cmdProofAdd (p : List Char) : List Char := sProofAdd ++ p ++ sDq
def cmdProofLs (j : Bool) : List Char := if j then sProofLsJson else sProofLs
def cmdKeyCreate (j : Bool) : List Char := if j then sKeyCreateJson else sKeyCreate
def cmdBridge (d : List (List Char) × Option Int × Bool) : List Char :=
  sBridgeCmd ++ canFlags d.1 ++ optNumFlagDefined sExpFlag d.2.1 ++
    boolFlag d.2.2 sJsonFlag
def cmdCanBlobAdd (p : List Char) : List Char := sCanBlobAdd ++ p ++ sDq
def cmdCanBlobLs (d : Bool × Option Int × Option (List Char)) : List Char :=
  sCanBlobLs ++ boolFlag d.1 sJsonFlag ++ optNumFlag sSizeFlag d.2.1 ++
    optStrFlag sCursorFlag [] d.2.2
def cmdCanBlobRm (mh : List Char) : List Char := sCanBlobRm ++ mh
def cmdCanIndexAdd (c : List Char) : List Char := sCanIndexAdd ++ c
def cmdCanUploadAdd (d : List Char × List (List Char)) : List Char :=
  sCanUploadAdd ++ d.1 ++ sSp ++ joinSp d.2
def cmdCanUploadLs
    (d : Bool × Bool × Option Int × Option (List Char) × Bool) : List Char :=
  sCanUploadLs ++ boolFlag d.1 sJsonFlag ++ boolFlag d.2.1 sShardsFlag ++
    optNumFlag sSizeFlag d.2.2.1 ++ optStrFlag sCursorFlag [] d.2.2.2.1 ++
    boolFlag d.2.2.2.2 sPreFlag
def cmdCanUploadRm (rc : List Char) : List Char := sCanUploadRm ++ rc
def cmdPlanGet (acc : Option (List Char)) : List Char :=
  sPlanGet ++ optStrFlag sAccountFlag [] acc
def cmdSpaceProvision (d : List Char × List Char) : List Char :=
  sSpaceProvision ++ d.1 ++ sSpaceFlag ++ d.2
def cmdCouponCreate (cc : List Char) : List Char := sCouponCreate ++ cc
def cmdUsageReport (d : Option (List Char) × Bool) : List Char :=
  sUsageReport ++ optStrFlag sSpaceFlag [] d.1 ++ boolFlag d.2 sJsonFlag
def cmdCanAccessClaim (p : List Char) : List Char := sCanAccessClaim ++ p ++ sDq
def cmdCanStoreAdd (p : List Char) : List Char := sCanStoreAdd ++ p ++ sDq
def cmdCanStoreLs (d : Bool × Option Int × Option (List Char)) : List Char :=
  sCanStoreLs ++ boolFlag d.1 sJsonFlag ++ optNumFlag sSizeFlag d.2.1 ++
    optStrFlag sCursorFlag [] d.2.2
def cmdCanStoreRm (c : List Char) : List Char := sCanStoreRm ++ c
def cmdCanFilecoinInfo (pc : List Char) : List Char := sCanFilecoinInfo ++ pc

/- Response message texts from tool_handlers.ts. -/
def mSpaceUse (s : List Char) : List Char :=
  "Successfully set current space to ".data ++ s
def mUpMsg : List Char := "Upload successful.".data
def sDot : List Char := ".".data
def mRm (c : List Char) : List Char :=
  "Successfully removed listing for CID ".data ++ c ++ sDot
def mOpenMsg (url : List Char) : List Char :=
  "To view the content, open this URL in your browser: ".data ++ url
def mSpaceAdd : List Char := "Space added successfully from proof.".data
def mDelegB64 : List Char :=
  "Delegation created successfully (base64 output).".data
def mDelegFile (o : Option (List Char)) : List Char :=
  "Delegation created successfully (output file: ".data ++ jsUndef o ++ ").".data
def mDelegRevoke (dc : List Char) : List Char :=
  "Successfully revoked delegation ".data ++ dc ++ sDot
def mProofAdd (p : List Char) : List Char :=
  "Successfully added proof from ".data ++ p ++ sDot
def mKeyJson : List Char := "New key pair created (JSON format).".data
def mKeyRaw : List Char := "New key pair created (raw output).".data
def mBridgeJson : List Char := "Bridge tokens generated (JSON format).".data
def mBridgeRaw : List Char := "Bridge tokens generated (raw output).".data
def mBlobAddOk : List Char := "Blob added successfully.".data
def mBlobAddFail : List Char := "Blob added, but output parsing failed.".data
def mBlobRm (mh : List Char) : List Char :=
  "Blob ".data ++ mh ++ " removed successfully.".data
def mIndexAdd (c : List Char) : List Char :=
  "Index CID ".data ++ c ++ " added successfully.".data
def mCanUploadAdd (rc : List Char) : List Char :=
  "Upload with root ".data ++ rc ++ " registered successfully.".data
def mCanUploadRm (rc : List Char) : List Char :=
  "Upload ".data ++ rc ++ " removed successfully.".data
def mPlanGet : List Char := "Plan information retrieved.".data
def mAccountLs : List Char := "Authorized accounts retrieved.".data
def mSpaceProvision (d : List Char × List Char) : List Char :=
  "Space ".data ++ d.2 ++ " provisioned for customer ".data ++ d.1 ++ sDot
def mCoupon : List Char := "Attempted to claim coupon.".data
def mAccessClaim : List Char := "Capability claim attempted.".data
def mStoreAdd : List Char := "CAR file stored successfully.".data
def mStoreRm (c : List Char) : List Char :=
  "Successfully removed CAR shard ".data ++ c ++ sDot
def mResetMsg : List Char :=
  "Agent state reset successfully (proofs/delegations removed).".data
def mSpaceCreateErr : List Char :=
  "`w3 space create` cannot be run via MCP due to interactive recovery key prompts. Please run this command manually in your terminal.".data
def mSpaceInfoErr (out : List Char) : List Char :=
  "Failed to parse JSON output for w3_space_info. Raw output: ".data ++ out
def mPlanGetErr (out : List Char) : List Char :=
  "Failed to parse JSON output for w3_plan_get. Raw output: ".data ++ out
def mAccountLsErr (out : List Char) : List Char :=
  "Failed to parse JSON output for w3_account_ls. Raw output: ".data ++ out
def loginMsg (email out err : List Char) : List Char :=
  "Login process initiated for ".data ++ email ++
    ". Output from w3:\nStdout: ".data ++ out ++ sStderrNl ++ err ++
    "\nPlease check your email to complete the login.".data

/- Response shaping per handler, from validated data and captured stdout. -/
def kOfSpaceLs (_w : World) (_d : Unit) (out : List Char) :
    Except (List Char) Json :=
  .ok (Json.obj [(kSpaces, Json.arr ((parseSpaces out).map spaceJson))])
def kOfSpaceUse (_w : World) (s out : List Char) : Except (List Char) Json :=
  .ok (msgOutResp (mSpaceUse s) out)
def kOfUp (_w : World) (_d : List (List Char) × Bool × Bool) (out : List Char) :
    Except (List Char) Json :=
  .ok (msgOutResp mUpMsg out)
def kOfLs (w : World) (j : Bool) (out : List Char) : Except (List Char) Json :=
  if j then ndListResp w kUploads out else .ok (outResp out)
def kOfRm (_w : World) (d : List Char × Bool) (out : List Char) :
    Except (List Char) Json :=
  .ok (msgOutResp (mRm d.1) out)
def kOfSpaceInfo (w : World) (d : Option (List Char) × Bool) (out : List Char) :
    Except (List Char) Json :=
  if d.2 then
    match parseNdJson w.jp out with
    | .ok info => .ok (Json.obj [(kSpaceInfoK, info.headD (Json.obj []))])
    | .error _ =>
      match w.jp out with
      | .ok single => .ok (Json.obj [(kSpaceInfoK, single)])
      | .error _ => .error (mSpaceInfoErr out)
  else .ok (outResp out)
def kOfSpaceAdd (_w : World) (_p out : List Char) : Except (List Char) Json :=
  .ok (msgOutResp mSpaceAdd out)
def kOfDelegCreate (_w : World)
    (d : List Char × List (List Char) × Option (List Char) ×
      Option (List Char) × Option (List Char) × Bool) (out : List Char) :
    Except (List Char) Json :=
  .ok (msgOutResp (if d.2.2.2.2.2 then mDelegB64 else mDelegFile d.2.2.2.2.1) out)
def kOfDelegLs (w : World) (j : Bool) (out : List Char) :
    Except (List Char) Json :=
  if j then ndListResp w kDelegations out else .ok (outResp out)
def kOfDelegRevoke (_w : World) (d : List Char × Option (List Char))
    (out : List Char) : Except (List Char) Json :=
  .ok (msgOutResp (mDelegRevoke d.1) out)
def kOfProofAdd (_w : World) (p out : List Char) : Except (List Char) Json :=
  .ok (msgOutResp (mProofAdd p) out)
def kOfProofLs (w : World) (j : Bool) (out : List Char) :
    Except (List Char) Json :=
  if j then ndListResp w kProofs out else .ok (outResp out)
def kOfKeyCreate (w : World) (j : Bool) (out : List Char) :
    Except (List Char) Json :=
  if j then
    match w.jp out with
    | .ok kd => .ok (Json.obj [(kMessage, Json.str mKeyJson), (kKeyData, kd)])
    | .error _ => .ok (msgOutResp mKeyRaw out)
  else .ok (msgOutResp mKeyRaw out)
def kOfBridge (w : World) (d : List (List Char) × Option Int × Bool)
    (out : List Char) : Except (List Char) Json :=
  if d.2.2 then
    match w.jp out with
    | .ok td => .ok (Json.obj [(kMessage, Json.str mBridgeJson), (kTokenData, td)])
    | .error _ => .ok (msgOutResp mBridgeRaw out)
  else .ok (msgOutResp mBridgeRaw out)
def kOfCanBlobAdd (w : World) (_p out : List Char) : Except (List Char) Json :=
  match w.matchStored out with
  | some (mh, cid) =>
    if mh.isEmpty || cid.isEmpty then .ok (msgOutResp mBlobAddFail out)
    else
      .ok (Json.obj [(kMessage, Json.str mBlobAddOk), (kMultihash, Json.str mh),
        (kCid, Json.str cid), (kOutput, Json.str (trimS out))])
  | none => .ok (msgOutResp mBlobAddFail out)
def kOfCanBlobLs (w : World) (d : Bool × Option Int × Option (List Char))
    (out : List Char) : Except (List Char) Json :=
  if d.1 then ndListResp w kBlobs out else .ok (outResp out)
def kOfCanBlobRm (_w : World) (mh out : List Char) : Except (List Char) Json :=
  .ok (msgOutResp (mBlobRm mh) out)
def kOfCanIndexAdd (_w : World) (c out : List Char) : Except (List Char) Json :=
  .ok (msgOutResp (mIndexAdd c) out)
def kOfCanUploadAdd (_w : World) (d : List Char × List (List Char))
    (out : List Char) : Except (List Char) Json :=
  .ok (msgOutResp (mCanUploadAdd d.1) out)
def kOfCanUploadLs (w : World)
    (d : Bool × Bool × Option Int × Option (List Char) × Bool)
    (out : List Char) : Except (List Char) Json :=
  if d.1 then ndListResp w kUploads out else .ok (outResp out)
def kOfCanUploadRm (_w : World) (rc out : List Char) : Except (List Char) Json :=
  .ok (msgOutResp (mCanUploadRm rc) out)
def kOfPlanGet (w : World) (_acc : Option (List Char)) (out : List Char) :
    Except (List Char) Json :=
  match parseNdJson w.jp out with
  | .ok pd =>
    .ok (Json.obj [(kMessage, Json.str mPlanGet), (kPlanData, pd.headD (Json.obj []))])
  | .error _ => .error (mPlanGetErr out)
def kOfAccountLs (w : World) (_d : Unit) (out : List Char) :
    Except (List Char) Json :=
  match parseNdJson w.jp out with
  | .ok accs =>
    .ok (Json.obj [(kMessage, Json.str mAccountLs), (kAccounts, Json.arr accs)])
  | .error _ => .error (mAccountLsErr out)
def kOfSpaceProvision (_w : World) (d : List Char × List Char)
    (out : List Char) : Except (List Char) Json :=
  .ok (msgOutResp (mSpaceProvision d) out)
def kOfCouponCreate (_w : World) (_cc out : List Char) :
    Except (List Char) Json :=
  .ok (msgOutResp mCoupon out)
def kOfUsageReport (w : World) (d : Option (List Char) × Bool)
    (out : List Char) : Except (List Char) Json :=
  if d.2 then
    match parseNdJson w.jp out with
    | .ok rep => .ok (Json.obj [(kUsageReportK, rep.headD (Json.obj []))])
    | .error _ => .ok (outResp out)
  else .ok (outResp out)
def kOfCanAccessClaim (_w : World) (_p out : List Char) :
    Except (List Char) Json :=
  .ok (msgOutResp mAccessClaim out)
def kOfCanStoreAdd (_w : World) (_p out : List Char) : Except (List Char) Json :=
  .ok (msgOutResp mStoreAdd out)
def kOfCanStoreLs (w : World) (d : Bool × Option Int × Option (List Char))
    (out : List Char) : Except (List Char) Json :=
  if d.1 then ndListResp w kStores out else .ok (outResp out)
def kOfCanStoreRm (_w : World) (c out : List Char) : Except (List Char) Json :=
  .ok (msgOutResp (mStoreRm c) out)
def kOfCanFilecoinInfo (w : World) (_pc out : List Char) :
    Except (List Char) Json :=
  match w.jp out with
  | .ok info => .ok (Json.obj [(kFilecoinInfo, info)])
  | .error _ => .ok (outResp out)
def kOfReset (_w : World) (_d : Unit) (out : List Char) :
    Except (List Char) Json :=
  .ok (msgOutResp mResetMsg out)

/- handleW3Login: no argument validation at all; the subprocess is invoked
   with the configured email unconditionally, and the response embeds the raw
   stdout and stderr. -/
def handleW3Login (w : World) (_args : Option Json) : HandlerOut :=
  match runW3Command w.exec (sLogin ++ w.loginEmail) with
  | .error e => ⟨.error e, [sLogin ++ w.loginEmail]⟩
  | .ok (out, err) =>
    ⟨.ok (Json.obj [(kMessage, Json.str (loginMsg w.loginEmail out err))]),
      [sLogin ++ w.loginEmail]⟩

/- handleW3SpaceCreate: throws immediately (interactive prompts), before any
   validation and without running a subprocess. -/
def handleW3SpaceCreate (_w : World) (_args : Option Json) : HandlerOut :=
  ⟨.error mSpaceCreateErr, []⟩

/- handleW3Open: validates, then builds a gateway URL without any subprocess
   (path is appended under JS truthiness: an empty path adds nothing). -/
def handleW3Open (_w : World) (args : Option Json) : HandlerOut :=
  match vW3Open args with
  | .error _ => ⟨.error (mInvalid sw3_open), []⟩
  | .ok d =>
    let url := sBaseUrl ++
      (match d.2 with
       | some p => if p.isEmpty then d.1 else d.1 ++ sSlash ++ p
       | none => d.1)
    ⟨.ok (Json.obj [(kMessage, Json.str (mOpenMsg url)), (kUrl, Json.str url)]), []⟩

def handleW3SpaceLs : World → Option Json → HandlerOut :=
  stdTool vW3SpaceLs (mInvalid sw3_space_ls) (fun _ => sSpaceLs) kOfSpaceLs
def handleW3SpaceUse : World → Option Json → HandlerOut :=
  stdTool vW3SpaceUse (mInvalid sw3_space_use) cmdSpaceUse kOfSpaceUse
def handleW3Up : World → Option Json → HandlerOut :=
  stdTool vW3Up (mInvalid sw3_up) cmdUp kOfUp
def handleW3Ls : World → Option Json → HandlerOut :=
  stdTool vW3Ls (mInvalid sw3_ls) cmdLs kOfLs
def handleW3Rm : World → Option Json → HandlerOut :=
  stdTool vW3Rm (mInvalid sw3_rm) cmdRm kOfRm
def handleW3SpaceInfo : World → Option Json → HandlerOut :=
  stdTool vW3SpaceInfo (mInvalid sw3_space_info) cmdSpaceInfo kOfSpaceInfo
def handleW3SpaceAdd : World → Option Json → HandlerOut :=
  stdTool vW3SpaceAdd (mInvalid sw3_space_add) cmdSpaceAdd kOfSpaceAdd
def handleW3DelegationCreate : World → Option Json → HandlerOut :=
  stdTool vW3DelegationCreate (mInvalid sw3_delegation_create) cmdDelegCreate
    kOfDelegCreate
def handleW3DelegationLs : World → Option Json → HandlerOut :=
  stdTool vW3DelegationLs (mInvalid sw3_delegation_ls) cmdDelegLs kOfDelegLs
def handleW3DelegationRevoke : World → Option Json → HandlerOut :=
  stdTool vW3DelegationRevoke (mInvalid sw3_delegation_revoke) cmdDelegRevoke
    kOfDelegRevoke
def handleW3ProofAdd : World → Option Json → HandlerOut :=
  stdTool vW3ProofAdd (mInvalid sw3_proof_add) cmdProofAdd kOfProofAdd
def handleW3ProofLs : World → Option Json → HandlerOut :=
  stdTool vW3ProofLs (mInvalid sw3_proof_ls) cmdProofLs kOfProofLs
def handleW3KeyCreate : World → Option Json → HandlerOut :=
  stdTool vW3KeyCreate (mInvalid sw3_key_create) cmdKeyCreate kOfKeyCreate
def handleW3BridgeGenerateTokens : World → Option Json → HandlerOut :=
  stdTool vW3BridgeGenerateTokens (mInvalid sw3_bridge_generate_tokens)
    cmdBridge kOfBridge
def handleW3CanBlobAdd : World → Option Json → HandlerOut :=
  stdTool vW3CanBlobAdd (mInvalid sw3_can_blob_add) cmdCanBlobAdd kOfCanBlobAdd
def handleW3CanBlobLs : World → Option Json → HandlerOut :=
  stdTool vW3CanBlobLs (mInvalid sw3_can_blob_ls) cmdCanBlobLs kOfCanBlobLs
def handleW3CanBlobRm : World → Option Json → HandlerOut :=
  stdTool vW3CanBlobRm (mInvalid sw3_can_blob_rm) cmdCanBlobRm kOfCanBlobRm
def handleW3CanIndexAdd : World → Option Json → HandlerOut :=
  stdTool vW3CanIndexAdd (mInvalid sw3_can_index_add) cmdCanIndexAdd
    kOfCanIndexAdd
def handleW3CanUploadAdd : World → Option Json → HandlerOut :=
  stdTool vW3CanUploadAdd (mInvalid sw3_can_upload_add) cmdCanUploadAdd
    kOfCanUploadAdd
def handleW3CanUploadLs : World → Option Json → HandlerOut :=
  stdTool vW3CanUploadLs (mInvalid sw3_can_upload_ls) cmdCanUploadLs
    kOfCanUploadLs
def handleW3CanUploadRm : World → Option Json → HandlerOut :=
  stdTool vW3CanUploadRm (mInvalid sw3_can_upload_rm) cmdCanUploadRm
    kOfCanUploadRm
def handleW3PlanGet : World → Option Json → HandlerOut :=
  stdTool vW3PlanGet (mInvalid sw3_plan_get) cmdPlanGet kOfPlanGet
def handleW3AccountLs : World → Option Json → HandlerOut :=
  stdTool vW3AccountLs (mInvalid sw3_account_ls) (fun _ => sAccountLs)
    kOfAccountLs
def handleW3SpaceProvision : World → Option Json → HandlerOut :=
  stdTool vW3SpaceProvision (mInvalid sw3_space_provision) cmdSpaceProvision
    kOfSpaceProvision
def handleW3CouponCreate : World → Option Json → HandlerOut :=
  stdTool vW3CouponCreate (mInvalid sw3_coupon_create) cmdCouponCreate
    kOfCouponCreate
def handleW3UsageReport : World → Option Json → HandlerOut :=
  stdTool vW3UsageReport (mInvalid sw3_usage_report) cmdUsageReport
    kOfUsageReport
def handleW3CanAccessClaim : World → Option Json → HandlerOut :=
  stdTool vW3CanAccessClaim (mInvalid sw3_can_access_claim) cmdCanAccessClaim
    kOfCanAccessClaim
def handleW3CanStoreAdd : World → Option Json → HandlerOut :=
  stdTool vW3CanStoreAdd (mInvalid sw3_can_store_add) cmdCanStoreAdd
    kOfCanStoreAdd
def handleW3CanStoreLs : World → Option Json → HandlerOut :=
  stdTool vW3CanStoreLs (mInvalid sw3_can_store_ls) cmdCanStoreLs kOfCanStoreLs
def handleW3CanStoreRm : World → Option Json → HandlerOut :=
  stdTool vW3CanStoreRm (mInvalid sw3_can_store_rm) cmdCanStoreRm kOfCanStoreRm
def handleW3CanFilecoinInfo : World → Option Json → HandlerOut :=
  stdTool vW3CanFilecoinInfo (mInvalid sw3_can_filecoin_info) cmdCanFilecoinInfo
    kOfCanFilecoinInfo
def handleW3Reset : World → Option Json → HandlerOut :=
  stdTool vW3Reset (mInvalid sw3_reset) (fun _ => sReset) kOfReset

/- The 35 tools of the server, in the source order of the toolHandlers map. -/
inductive Tool where
  | login | spaceLs | spaceUse | spaceCreate | up | ls | rm | openTool
  | spaceInfo | spaceAdd | delegationCreate | delegationLs | delegationRevoke
  | proofAdd | proofLs | keyCreate | bridgeGenerateTokens | canBlobAdd
  | canBlobLs | canBlobRm | canIndexAdd | canUploadAdd | canUploadLs
  | canUploadRm | planGet | accountLs | spaceProvision | couponCreate
  | usageReport | canAccessClaim | canStoreAdd | canStoreLs | canStoreRm
  | canFilecoinInfo | reset
deriving DecidableEq

/- Dispatch to the handler implementations (the values of toolHandlers). -/
def runTool : Tool → World → Option Json → HandlerOut
  | .login => handleW3Login
  | .spaceLs => handleW3SpaceLs
  | .spaceUse => handleW3SpaceUse
  | .spaceCreate => handleW3SpaceCreate
  | .up => handleW3Up
  | .ls => handleW3Ls
  | .rm => handleW3Rm
  | .openTool => handleW3Open
  | .spaceInfo => handleW3SpaceInfo
  | .spaceAdd => handleW3SpaceAdd
  | .delegationCreate => handleW3DelegationCreate
  | .delegationLs => handleW3DelegationLs
  | .delegationRevoke => handleW3DelegationRevoke
  | .proofAdd => handleW3ProofAdd
  | .proofLs => handleW3ProofLs
  | .keyCreate => handleW3KeyCreate
  | .bridgeGenerateTokens => handleW3BridgeGenerateTokens
  | .canBlobAdd => handleW3CanBlobAdd
  | .canBlobLs => handleW3CanBlobLs
  | .canBlobRm => handleW3CanBlobRm
  | .canIndexAdd => handleW3CanIndexAdd
  | .canUploadAdd => handleW3CanUploadAdd
  | .canUploadLs => handleW3CanUploadLs
  | .canUploadRm => handleW3CanUploadRm
  | .planGet => handleW3PlanGet
  | .accountLs => handleW3AccountLs
  | .spaceProvision => handleW3SpaceProvision
  | .couponCreate => handleW3CouponCreate
  | .usageReport => handleW3UsageReport
  | .canAccessClaim => handleW3CanAccessClaim
  | .canStoreAdd => handleW3CanStoreAdd
  | .canStoreLs => handleW3CanStoreLs
  | .canStoreRm => handleW3CanStoreRm
  | .canFilecoinInfo => handleW3CanFilecoinInfo
  | .reset => handleW3Reset

/- Whether an argument bag satisfies a tool's exported zod schema. -/
def argsValid : Tool → Option Json → Bool
  | .login, a => exOk (vW3Login a)
  | .spaceLs, a => exOk (vW3SpaceLs a)
  | .spaceUse, a => exOk (vW3SpaceUse a)
  | .spaceCreate, a => exOk (vW3SpaceCreate a)
  | .up, a => exOk (vW3Up a)
  | .ls, a => exOk (vW3Ls a)
  | .rm, a => exOk (vW3Rm a)
  | .openTool, a => exOk (vW3Open a)
  | .spaceInfo, a => exOk (vW3SpaceInfo a)
  | .spaceAdd, a => exOk (vW3SpaceAdd a)
  | .delegationCreate, a => exOk (vW3DelegationCreate a)
  | .delegationLs, a => exOk (vW3DelegationLs a)
  | .delegationRevoke, a => exOk (vW3DelegationRevoke a)
  | .proofAdd, a => exOk (vW3ProofAdd a)
  | .proofLs, a => exOk (vW3ProofLs a)
  | .keyCreate, a => exOk (vW3KeyCreate a)
  | .bridgeGenerateTokens, a => exOk (vW3BridgeGenerateTokens a)
  | .canBlobAdd, a => exOk (vW3CanBlobAdd a)
  | .canBlobLs, a => exOk (vW3CanBlobLs a)
  | .canBlobRm, a => exOk (vW3CanBlobRm a)
  | .canIndexAdd, a => exOk (vW3CanIndexAdd a)
  | .canUploadAdd, a => exOk (vW3CanUploadAdd a)
  | .canUploadLs, a => exOk (vW3CanUploadLs a)
  | .canUploadRm, a => exOk (vW3CanUploadRm a)
  | .planGet, a => exOk (vW3PlanGet a)
  | .accountLs, a => exOk (vW3AccountLs a)
  | .spaceProvision, a => exOk (vW3SpaceProvision a)
  | .couponCreate, a => exOk (vW3CouponCreate a)
  | .usageReport, a => exOk (vW3UsageReport a)
  | .canAccessClaim, a => exOk (vW3CanAccessClaim a)
  | .canStoreAdd, a => exOk (vW3CanStoreAdd a)
  | .canStoreLs, a => exOk (vW3CanStoreLs a)
  | .canStoreRm, a => exOk (vW3CanStoreRm a)
  | .canFilecoinInfo, a => exOk (vW3CanFilecoinInfo a)
  | .reset, a => exOk (vW3Reset a)

/- The toolHandlers map of tool_handlers.ts: name-to-handler associations in
   source order. -/
def toolHandlers : List (List Char × Tool) :=
  [(sw3_login, .login), (sw3_space_ls, .spaceLs), (sw3_space_use, .spaceUse),
   (sw3_space_create, .spaceCreate), (sw3_up, .up), (sw3_ls, .ls),
   (sw3_rm, .rm), (sw3_open, .openTool), (sw3_space_info, .spaceInfo),
   (sw3_space_add, .spaceAdd), (sw3_delegation_create, .delegationCreate),
   (sw3_delegation_ls, .delegationLs),
   (sw3_delegation_revoke, .delegationRevoke), (sw3_proof_add, .proofAdd),
   (sw3_proof_ls, .proofLs), (sw3_key_create, .keyCreate),
   (sw3_bridge_generate_tokens, .bridgeGenerateTokens),
   (sw3_can_blob_add, .canBlobAdd), (sw3_can_blob_ls, .canBlobLs),
   (sw3_can_blob_rm, .canBlobRm), (sw3_can_index_add, .canIndexAdd),
   (sw3_can_upload_add, .canUploadAdd), (sw3_can_upload_ls, .canUploadLs),
   (sw3_can_upload_rm, .canUploadRm), (sw3_plan_get, .planGet),
   (sw3_account_ls, .accountLs), (sw3_space_provision, .spaceProvision),
   (sw3_coupon_create, .couponCreate), (sw3_usage_report, .usageReport),
   (sw3_can_access_claim, .canAccessClaim), (sw3_can_store_add, .canStoreAdd),
   (sw3_can_store_ls, .canStoreLs), (sw3_can_store_rm, .canStoreRm),
   (sw3_can_filecoin_info, .canFilecoinInfo), (sw3_reset, .reset)]

def toolHandlersKeys : List (List Char) := toolHandlers.map Prod.fst

/- The ListTools name derivation of index.ts: insert "_" before each capital,
   remove the first "_Args_Schema", lowercase, drop the leading underscore. -/
def expandCaps : List Char → List Char
  | [] => []
  | c :: cs => if c.isUpper then '_' :: c :: expandCaps cs else c :: expandCaps cs

/- JavaScript String.prototype.replace with a string pattern: replace the
   first occurrence only (no occurrence leaves the string unchanged). -/
def replaceFirst (pat repl : List Char) : List Char → List Char
  | [] => []
  | c :: cs =>
    if isPrefOf pat (c :: cs) then repl ++ (c :: cs).drop pat.length
    else c :: replaceFirst pat repl cs

def sArgsSchemaPat : List Char := "_Args_Schema".data

def toolNameOf (schemaName : List Char) : List Char :=
  ((replaceFirst sArgsSchemaPat [] (expandCaps schemaName)).map Char.toLower).drop 1

/- The exported ...ArgsSchema constant names of schemas.ts, in source order
   (all exports end with "ArgsSchema" and are zod types, so the ListTools
   filter keeps exactly these). -/
def schemaNames : List (List Char) :=
  ["W3LoginArgsSchema".data, "W3SpaceLsArgsSchema".data,
   "W3SpaceUseArgsSchema".data, "W3SpaceCreateArgsSchema".data,
   "W3UpArgsSchema".data, "W3LsArgsSchema".data, "W3RmArgsSchema".data,
   "W3OpenArgsSchema".data, "W3SpaceInfoArgsSchema".data,
   "W3SpaceAddArgsSchema".data, "W3DelegationCreateArgsSchema".data,
   "W3DelegationLsArgsSchema".data, "W3DelegationRevokeArgsSchema".data,
   "W3ProofAddArgsSchema".data, "W3ProofLsArgsSchema".data,
   "W3KeyCreateArgsSchema".data, "W3BridgeGenerateTokensArgsSchema".data,
   "W3CanBlobAddArgsSchema".data, "W3CanBlobLsArgsSchema".data,
   "W3CanBlobRmArgsSchema".data, "W3CanIndexAddArgsSchema".data,
   "W3CanUploadAddArgsSchema".data, "W3CanUploadLsArgsSchema".data,
   "W3CanUploadRmArgsSchema".data, "W3PlanGetArgsSchema".data,
   "W3AccountLsArgsSchema".data, "W3SpaceProvisionArgsSchema".data,
   "W3CouponCreateArgsSchema".data, "W3UsageReportArgsSchema".data,
   "W3CanAccessClaimArgsSchema".data, "W3CanStoreAddArgsSchema".data,
   "W3CanStoreLsArgsSchema".data, "W3CanStoreRmArgsSchema".data,
   "W3CanFilecoinInfoArgsSchema".data, "W3ResetArgsSchema".data]

/- Concrete sample data used by the closed instance theorems below. -/
def sBoom : List Char := "boom".data
def cjpErr : List Char → Except (List Char) Json := fun _ => .error sBoom
def cjpNull : List Char → Except (List Char) Json := fun _ => .ok Json.null
def sOkLine : List Char := "42".data
def cjpSel : List Char → Except (List Char) Json :=
  fun l => if l = sOkLine then .ok Json.null else .error sBoom
def ndC3Ex : List Char := "42\nnope".data
def sBadLine : List Char := "nope".data
def ndC2Ex : List Char := " 42\n\n42 ".data
def longLine : List Char := List.replicate 101 'a'
def emailEx : List Char := "user@example.com".data
def sampleLsOut : List Char := "did:key:abc  my-space\n".data
def sDidAbc : List Char := "did:key:abc".data
def sMySpace : List Char := "my-space".data
def sBlankEx : List Char := "  \n \n".data
def sCidEx : List Char := "bafyabc".data
def argsOpenEx : Option Json := some (Json.obj [(kCid, Json.str sCidEx)])
def sPathEx : List Char := "/tmp/data.bin".data
def argsUpEx : Option Json := some (Json.obj [(kPaths, Json.arr [Json.str sPathEx])])
def starLineEx : List Char := "* did:key:abc my-space".data
def wConst (o : List Char) : World :=
  ⟨fun _ => ExecResult.success o [], cjpErr, fun _ => none, emailEx⟩
def wC1 : World := wConst []
def wLs : World := wConst sampleLsOut
def wFailEx : World :=
  ⟨fun _ => ExecResult.failure sBoom sBoom, cjpErr, fun _ => none, emailEx⟩

/- Decompose a string at its first newline (proof infrastructure for relating
   splitNl on a trimmed string to splitNl on the original). -/
def breakNl : List Char → List Char × Option (List Char)
  | [] => ([], none)
  | c :: cs =>
    if c = '\n' then ([], some cs)
    else
      let p := breakNl cs
      (c :: p.1, p.2)

/- The line as handleW3SpaceLs sees it before token extraction: trimmed, with
   a leading "*" (and the whitespace after it) removed. -/
def starStrip (t : List Char) : List Char :=
  if isPrefOf sStar t then trimS (t.drop 1) else t

lemma exceptUnit_error {a : Type} (x : Except Unit a) (h : exOk x = false) :
    x = .error () := by
  cases x with
  | ok v => simp [exOk] at h
  | error e => cases e; rfl

lemma stdTool_reject {a : Type} (v : Option Json → Except Unit a)
    (m : List Char) (cmd : a → List Char)
    (k : World → a → List Char → Except (List Char) Json)
    (w : World) (args : Option Json) (h : exOk (v args) = false) :
    isErrResult (stdTool v m cmd k w args) = true ∧
      (stdTool v m cmd k w args).commands = [] := by
  have hv := exceptUnit_error (v args) h
  simp [stdTool, hv, isErrResult]

lemma stdTool_c4 {a : Type} (v : Option Json → Except Unit a)
    (m : List Char) (cmd : a → List Char)
    (k : World → a → List Char → Except (List Char) Json)
    (w : World) (args : Option Json) :
    (stdTool v m cmd k w args).commands.length ≤ 1 ∧
      (exOk (v args) = true → (stdTool v m cmd k w args).commands.length = 1) := by
  unfold stdTool
  cases hv : v args with
  | error e => simp [exOk, hv]
  | ok d =>
    cases hr : runW3Command w.exec (cmd d) with
    | error e => simp [exOk, hr]
    | ok p => cases p with
      | mk o e => simp [exOk, hr]

lemma handleW3Login_commands (w : World) (a : Option Json) :
    (handleW3Login w a).commands = [sLogin ++ w.loginEmail] := by
  unfold handleW3Login
  cases hr : runW3Command w.exec (sLogin ++ w.loginEmail) with
  | error e => simp [hr]
  | ok p => cases p with
    | mk o e => simp [hr]

lemma handleW3Open_commands (w : World) (a : Option Json) :
    (handleW3Open w a).commands = [] := by
  unfold handleW3Open
  cases hv : vW3Open a with
  | error e => simp
  | ok d => simp

lemma isPrefOf_append_self : ∀ p b : List Char, isPrefOf p (p ++ b) = true := by
  intro p
  induction p with
  | nil => intro b; rfl
  | cons c cs ih => intro b; simp [isPrefOf, ih]

lemma containsSub_nilpat : ∀ l : List Char, containsSub [] l = true := by
  intro l
  cases l <;> simp [containsSub, isPrefOf]

lemma containsSub_self_append (p b : List Char) : containsSub p (p ++ b) = true := by
  cases p with
  | nil => exact containsSub_nilpat _
  | cons c cs =>
    have h1 : isPrefOf (c :: cs) (c :: (cs ++ b)) = true := by
      have h2 := isPrefOf_append_self (c :: cs) b
      simpa using h2
    simp [containsSub, h1]

lemma containsSub_append_left (a b p : List Char) (h : containsSub p b = true) :
    containsSub p (a ++ b) = true := by
  induction a with
  | nil => simpa
  | cons c cs ih => simp [containsSub, ih]

lemma containsSub_self (p : List Char) : containsSub p p = true := by
  have h2 := containsSub_self_append p []
  simpa using h2

lemma runW3Command_failure_eq (exec : List Char → ExecResult)
    (cmd msg st : List Char) (h : exec (sW3Sp ++ cmd) = ExecResult.failure msg st) :
    runW3Command exec cmd = .error (sFail1 ++ cmd ++ sFail2 ++
      (if st.isEmpty then msg else msg ++ sStderrNl ++ st)) := by
  unfold runW3Command
  rw [h]

lemma entryCore_some (b : Bool) (t : List Char) (e : SpaceEntry)
    (h : entryCore b t = some e) :
    e.isCurrent = b ∧ isPrefOf sDidKey e.did = true := by
  simp only [entryCore] at h
  split at h
  · next hc =>
    cases h
    simp only [Bool.and_eq_true] at hc
    exact ⟨rfl, hc.2⟩
  · exact absurd h (by simp)

lemma entryCore_none (b : Bool) (t2 : List Char)
    (h : isPrefOf sDidKey ((splitWs t2).headD []) = false) :
    entryCore b t2 = none := by
  simp only [entryCore]
  rw [h, Bool.and_false]
  rfl


lemma splitNl_ne_nil : ∀ s : List Char, splitNl s ≠ [] := by
  intro s
  cases s with
  | nil => simp [splitNl]
  | cons c cs =>
    simp only [splitNl]
    split
    · simp
    · cases h : splitNl cs <;> simp


lemma breakNl_none : ∀ s l, breakNl s = (l, none) → s = l ∧ '\n' ∉ l := by
  intro s
  induction s with
  | nil =>
    intro l h
    simp only [breakNl, Prod.mk.injEq] at h
    rw [← h.1]
    exact ⟨rfl, by simp⟩
  | cons c cs ih =>
    intro l h
    simp only [breakNl] at h
    split at h
    · simp at h
    · next hc =>
      simp only [Prod.mk.injEq] at h
      obtain ⟨h1, h2⟩ := h
      obtain ⟨hcs, hnl⟩ := ih (breakNl cs).1 (by
        rw [show breakNl cs = ((breakNl cs).1, (breakNl cs).2) from rfl, h2])
      constructor
      · rw [← h1, ← hcs]
      · rw [← h1]
        intro hmem
        rcases List.mem_cons.mp hmem with hx | hx
        · exact hc hx.symm
        · exact hnl hx

lemma breakNl_some : ∀ s l r, breakNl s = (l, some r) →
    s = l ++ '\n' :: r ∧ '\n' ∉ l := by
  intro s
  induction s with
  | nil => intro l r h; simp [breakNl] at h
  | cons c cs ih =>
    intro l r h
    simp only [breakNl] at h
    split at h
    · next hc =>
      simp only [Prod.mk.injEq, Option.some.injEq] at h
      obtain ⟨h1, h2⟩ := h
      subst hc
      rw [← h1, ← h2]
      exact ⟨rfl, by simp⟩
    · next hc =>
      simp only [Prod.mk.injEq] at h
      obtain ⟨h1, h2⟩ := h
      obtain ⟨hcs, hnl⟩ := ih (breakNl cs).1 r (by
        rw [show breakNl cs = ((breakNl cs).1, (breakNl cs).2) from rfl, h2])
      constructor
      · rw [← h1]
        exact congrArg (List.cons c) hcs
      · rw [← h1]
        intro hmem
        rcases List.mem_cons.mp hmem with hx | hx
        · exact hc hx.symm
        · exact hnl hx

lemma splitNl_no_nl : ∀ s : List Char, '\n' ∉ s → splitNl s = [s] := by
  intro s
  induction s with
  | nil => intro _; rfl
  | cons c cs ih =>
    intro h
    have hc : ¬ c = '\n' := fun hx => h (by rw [hx]; exact List.mem_cons_self _ _)
    have hcs : splitNl cs = [cs] := ih (fun hx => h (List.mem_cons_of_mem _ hx))
    simp [splitNl, hc, hcs]

lemma splitNl_split : ∀ (l r : List Char), '\n' ∉ l →
    splitNl (l ++ '\n' :: r) = l :: splitNl r := by
  intro l
  induction l with
  | nil => intro r _; simp [splitNl]
  | cons c ls ih =>
    intro r h
    have hc : ¬ c = '\n' := fun hx => h (by rw [hx]; exact List.mem_cons_self _ _)
    have hls := ih r (fun hx => h (List.mem_cons_of_mem _ hx))
    simp [splitNl, hc, hls]


lemma trimRight_nil_iff : ∀ l : List Char, trimRight l = [] ↔ l.all isWs = true := by
  intro l
  induction l with
  | nil => simp [trimRight]
  | cons c cs ih =>
    cases h : trimRight cs with
    | nil =>
      have hcs : cs.all isWs = true := ih.mp h
      simp only [trimRight, h, List.all_cons, hcs, Bool.and_true]
      cases hw : isWs c with
      | true => simp [hw]
      | false => simp [hw]
    | cons r rs =>
      have hcs : cs.all isWs ≠ true := fun hx => by
        rw [ih.mpr hx] at h
        exact List.noConfusion h
      simp only [trimRight, h, List.all_cons]
      constructor
      · intro hx
        exact absurd hx (List.cons_ne_nil _ _)
      · intro hx
        simp only [Bool.and_eq_true] at hx
        exact absurd hx.2 hcs

lemma trimRight_cons_ne (c : Char) (cs : List Char) (h : trimRight cs ≠ []) :
    trimRight (c :: cs) = c :: trimRight cs := by
  cases h2 : trimRight cs with
  | nil => exact absurd h2 h
  | cons r rs => simp only [trimRight, h2]

lemma trimRight_append : ∀ a b : List Char,
    trimRight (a ++ b) =
      if trimRight b = [] then trimRight a else a ++ trimRight b := by
  intro a b
  induction a with
  | nil =>
    rw [List.nil_append]
    by_cases hb : trimRight b = []
    · rw [if_pos hb, hb]
      rfl
    · rw [if_neg hb]
      rfl
  | cons c cs ih =>
    rw [List.cons_append]
    by_cases hb : trimRight b = []
    · rw [if_pos hb] at ih
      rw [if_pos hb]
      simp only [trimRight, ih]
    · rw [if_neg hb] at ih
      rw [if_neg hb]
      have hne2 : trimRight (cs ++ b) ≠ [] := by
        rw [ih]
        intro hx
        exact hb (List.append_eq_nil.mp hx).2
      rw [trimRight_cons_ne c (cs ++ b) hne2, ih]
      rfl

lemma trimRight_decomp : ∀ l : List Char,
    ∃ t, l = trimRight l ++ t ∧ t.all isWs = true := by
  intro l
  induction l with
  | nil => exact ⟨[], rfl, rfl⟩
  | cons c cs ih =>
    obtain ⟨t, ht, hws⟩ := ih
    cases h : trimRight cs with
    | nil =>
      have hcs : cs.all isWs = true := (trimRight_nil_iff cs).mp h
      cases hw : isWs c with
      | true =>
        refine ⟨c :: cs, ?_, by simp [hw, hcs]⟩
        simp only [trimRight, h, hw, if_true]
        rfl
      | false =>
        refine ⟨cs, ?_, hcs⟩
        simp only [trimRight, h, hw]
        rfl
    | cons r rs =>
      refine ⟨t, ?_, hws⟩
      rw [trimRight_cons_ne c cs (by rw [h]; exact fun hx => List.noConfusion hx)]
      rw [List.cons_append, ← ht]

lemma trimLeft_all_iff : ∀ l : List Char, (trimLeft l).all isWs = l.all isWs := by
  intro l
  conv_rhs => rw [← List.takeWhile_append_dropWhile (p := isWs) (l := l)]
  rw [List.all_append]
  have h1 : (l.takeWhile isWs).all isWs = true := by
    rw [List.all_eq_true]
    intro x hx
    exact List.mem_takeWhile_imp hx
  rw [h1, Bool.true_and]
  rfl

lemma trimRight_all_iff : ∀ l : List Char, (trimRight l).all isWs = l.all isWs := by
  intro l
  obtain ⟨t, ht, hws⟩ := trimRight_decomp l
  conv_rhs => rw [ht]
  rw [List.all_append, hws, Bool.and_true]

lemma nonBlank_iff_all : ∀ l : List Char, nonBlank l = !(l.all isWs) := by
  intro l
  unfold nonBlank trimS
  have h1 : (trimRight (trimLeft l)).isEmpty = l.all isWs := by
    cases h : (trimRight (trimLeft l)).isEmpty with
    | true =>
      have h2 : trimRight (trimLeft l) = [] := by
        cases h3 : trimRight (trimLeft l) with
        | nil => rfl
        | cons x xs => rw [h3] at h; exact absurd h (by simp)
      have h4 := (trimRight_nil_iff _).mp h2
      rw [trimLeft_all_iff] at h4
      rw [h4]
    | false =>
      have h2 : trimRight (trimLeft l) ≠ [] := by
        cases h3 : trimRight (trimLeft l) with
        | nil => rw [h3] at h; exact absurd h (by simp)
        | cons x xs => exact fun hx => List.noConfusion hx
      have h4 : ¬ (trimLeft l).all isWs = true := fun hx =>
        h2 ((trimRight_nil_iff _).mpr hx)
      rw [trimLeft_all_iff] at h4
      cases h5 : l.all isWs with
      | true => exact absurd h5 h4
      | false => rfl
  rw [h1]

lemma nonBlank_trimLeft : ∀ l : List Char, nonBlank (trimLeft l) = nonBlank l := by
  intro l
  rw [nonBlank_iff_all, nonBlank_iff_all, trimLeft_all_iff]

lemma nonBlank_trimRight : ∀ l : List Char, nonBlank (trimRight l) = nonBlank l := by
  intro l
  rw [nonBlank_iff_all, nonBlank_iff_all, trimRight_all_iff]

lemma allWs_filter_splitNl_aux : ∀ n (s : List Char), s.length ≤ n →
    s.all isWs = true → (splitNl s).filter nonBlank = [] := by
  intro n
  induction n with
  | zero =>
    intro s hlen _
    have hs : s = [] := List.eq_nil_of_length_eq_zero (Nat.le_zero.mp hlen)
    rw [hs]
    rfl
  | succ n ih =>
    intro s hlen hws
    cases hb : breakNl s with
    | mk l rOpt =>
      cases rOpt with
      | none =>
        obtain ⟨hs, hnl⟩ := breakNl_none s l hb
        rw [hs] at hws ⊢
        rw [splitNl_no_nl l hnl]
        have hnb : nonBlank l = false := by
          rw [nonBlank_iff_all, hws]
          rfl
        simp [List.filter_cons, hnb]
      | some r =>
        obtain ⟨hs, hnl⟩ := breakNl_some s l r hb
        rw [hs] at hws hlen ⊢
        rw [splitNl_split l r hnl]
        simp only [List.all_append, List.all_cons, Bool.and_eq_true] at hws
        have hnb : nonBlank l = false := by
          rw [nonBlank_iff_all, hws.1]
          rfl
        have hr : (splitNl r).filter nonBlank = [] := by
          refine ih r ?_ hws.2.2
          rw [List.length_append, List.length_cons] at hlen
          omega
        simp [List.filter_cons, hnb, hr]


lemma trimLeft_no_nl (s : List Char) (h : '\n' ∉ s) : '\n' ∉ trimLeft s := by
  intro hx
  exact h ((List.dropWhile_sublist isWs).subset hx)

lemma trimRight_no_nl (s : List Char) (h : '\n' ∉ s) : '\n' ∉ trimRight s := by
  intro hx
  obtain ⟨t, ht, _⟩ := trimRight_decomp s
  refine h ?_
  rw [ht]
  exact List.mem_append_left _ hx

lemma trimLeft_nil_iff (l : List Char) : trimLeft l = [] ↔ l.all isWs = true := by
  rw [trimLeft, List.dropWhile_eq_nil_iff, List.all_eq_true]

lemma stepA_aux (jp : List Char → Except (List Char) Json)
    (h1 : ∀ l, jp (trimLeft l) = jp l) :
    ∀ n (s : List Char), s.length ≤ n →
      ((splitNl (trimLeft s)).filter nonBlank).map jp =
        ((splitNl s).filter nonBlank).map jp := by
  intro n
  induction n with
  | zero =>
    intro s hlen
    have hs : s = [] := List.eq_nil_of_length_eq_zero (Nat.le_zero.mp hlen)
    rw [hs]
    rfl
  | succ n ih =>
    intro s hlen
    cases hb : breakNl s with
    | mk l rOpt =>
      cases rOpt with
      | none =>
        obtain ⟨hs, hnl⟩ := breakNl_none s l hb
        subst hs
        rw [splitNl_no_nl s hnl, splitNl_no_nl (trimLeft s) (trimLeft_no_nl s hnl)]
        cases hnb : nonBlank s with
        | true =>
          have hnb2 : nonBlank (trimLeft s) = true := by
            rw [nonBlank_trimLeft, hnb]
          simp [List.filter_cons, hnb, hnb2, h1]
        | false =>
          have hnb2 : nonBlank (trimLeft s) = false := by
            rw [nonBlank_trimLeft, hnb]
          simp [List.filter_cons, hnb, hnb2]
      | some r =>
        obtain ⟨hs, hnl⟩ := breakNl_some s l r hb
        subst hs
        have hrlen : r.length ≤ n := by
          rw [List.length_append, List.length_cons] at hlen
          omega
        by_cases htl : trimLeft l = []
        · have hnb : nonBlank l = false := by
            rw [nonBlank_iff_all, (trimLeft_nil_iff l).mp htl]
            rfl
          have htrim : trimLeft (l ++ '\n' :: r) = trimLeft r := by
            rw [trimLeft, List.dropWhile_append]
            rw [show (List.dropWhile isWs l).isEmpty = true from by
              rw [← trimLeft]
              rw [htl]
              rfl]
            simp only [if_true]
            rw [List.dropWhile_cons, if_pos (by decide)]
            rfl
          rw [htrim, splitNl_split l r hnl]
          rw [ih r hrlen]
          simp [List.filter_cons, hnb]
        · have hnb : nonBlank l = true := by
            rw [nonBlank_iff_all]
            cases hall : l.all isWs with
            | true => exact absurd ((trimLeft_nil_iff l).mpr hall) htl
            | false => rfl
          have hnb2 : nonBlank (trimLeft l) = true := by
            rw [nonBlank_trimLeft, hnb]
          have htrim : trimLeft (l ++ '\n' :: r) = trimLeft l ++ '\n' :: r := by
            rw [trimLeft, List.dropWhile_append]
            rw [show (List.dropWhile isWs l).isEmpty = false from by
              rw [← trimLeft]
              cases hx : trimLeft l with
              | nil => exact absurd hx htl
              | cons y ys => rfl]
            simp only [Bool.false_eq_true, if_false]
            rfl
          rw [htrim, splitNl_split l r hnl,
            splitNl_split (trimLeft l) r (trimLeft_no_nl l hnl)]
          simp [List.filter_cons, hnb, hnb2, h1]

lemma stepB_aux (jp : List Char → Except (List Char) Json)
    (h2 : ∀ l, jp (trimRight l) = jp l) :
    ∀ n (s : List Char), s.length ≤ n →
      ((splitNl (trimRight s)).filter nonBlank).map jp =
        ((splitNl s).filter nonBlank).map jp := by
  intro n
  induction n with
  | zero =>
    intro s hlen
    have hs : s = [] := List.eq_nil_of_length_eq_zero (Nat.le_zero.mp hlen)
    rw [hs]
    rfl
  | succ n ih =>
    intro s hlen
    cases hb : breakNl s with
    | mk l rOpt =>
      cases rOpt with
      | none =>
        obtain ⟨hs, hnl⟩ := breakNl_none s l hb
        subst hs
        rw [splitNl_no_nl s hnl, splitNl_no_nl (trimRight s) (trimRight_no_nl s hnl)]
        cases hnb : nonBlank s with
        | true =>
          have hnb2 : nonBlank (trimRight s) = true := by
            rw [nonBlank_trimRight, hnb]
          simp [List.filter_cons, hnb, hnb2, h2]
        | false =>
          have hnb2 : nonBlank (trimRight s) = false := by
            rw [nonBlank_trimRight, hnb]
          simp [List.filter_cons, hnb, hnb2]
      | some r =>
        obtain ⟨hs, hnl⟩ := breakNl_some s l r hb
        subst hs
        have hrlen : r.length ≤ n := by
          rw [List.length_append, List.length_cons] at hlen
          omega
        have hsplit : trimRight (l ++ '\n' :: r) =
            if trimRight ('\n' :: r) = [] then trimRight l
            else l ++ trimRight ('\n' :: r) := trimRight_append l ('\n' :: r)
        by_cases htr : trimRight r = []
        · have hrws : r.all isWs = true := (trimRight_nil_iff r).mp htr
          have hnlr : trimRight ('\n' :: r) = [] := by
            refine (trimRight_nil_iff _).mpr ?_
            rw [List.all_cons, hrws, Bool.and_true]
            decide
          rw [hnlr, if_pos rfl] at hsplit
          rw [hsplit, splitNl_split l r hnl]
          rw [splitNl_no_nl (trimRight l) (trimRight_no_nl l hnl)]
          have hfr : (splitNl r).filter nonBlank = [] :=
            allWs_filter_splitNl_aux r.length r (Nat.le_refl _) hrws
          cases hnb : nonBlank l with
          | true =>
            have hnb2 : nonBlank (trimRight l) = true := by
              rw [nonBlank_trimRight, hnb]
            simp [List.filter_cons, hnb, hnb2, hfr, h2]
          | false =>
            have hnb2 : nonBlank (trimRight l) = false := by
              rw [nonBlank_trimRight, hnb]
            simp [List.filter_cons, hnb, hnb2, hfr]
        · have hnlr : trimRight ('\n' :: r) = '\n' :: trimRight r :=
            trimRight_cons_ne '\n' r htr
          rw [hnlr] at hsplit
          rw [if_neg (List.cons_ne_nil _ _)] at hsplit
          rw [hsplit, splitNl_split l (trimRight r) hnl, splitNl_split l r hnl]
          have ihr := ih r hrlen
          cases hnb : nonBlank l with
          | true => simp [List.filter_cons, hnb, ihr]
          | false => simp [List.filter_cons, hnb, ihr]

lemma trim_filter_map (jp : List Char → Except (List Char) Json)
    (h1 : ∀ l, jp (trimLeft l) = jp l) (h2 : ∀ l, jp (trimRight l) = jp l)
    (s : List Char) :
    ((splitNl (trimS s)).filter nonBlank).map jp =
      ((splitNl s).filter nonBlank).map jp := by
  unfold trimS
  rw [stepB_aux jp h2 (trimLeft s).length (trimLeft s) (Nat.le_refl _)]
  exact stepA_aux jp h1 s.length s (Nat.le_refl _)

lemma parseLines_ok (jp : List Char → Except (List Char) Json) :
    ∀ (lines : List (List Char)) (i : Nat),
      (∀ l ∈ lines, exOk (jp l) = true) →
      ∃ rs, parseLines jp i lines = .ok rs ∧
        List.Forall₂ (fun l r => jp l = .ok r) lines rs := by
  intro lines
  induction lines with
  | nil => exact fun i _ => ⟨[], rfl, List.Forall₂.nil⟩
  | cons l ls ih =>
    intro i h
    obtain ⟨v, hv⟩ : ∃ v, jp l = .ok v := by
      cases hjl : jp l with
      | ok v => exact ⟨v, rfl⟩
      | error er =>
        have := h l (List.mem_cons_self _ _)
        rw [hjl] at this
        exact absurd this (by simp [exOk])
    obtain ⟨rs, hok, hf⟩ := ih (i + 1) (fun x hx => h x (List.mem_cons_of_mem _ hx))
    exact ⟨v :: rs, by simp [parseLines, hv, hok], List.Forall₂.cons hv hf⟩

lemma forall2_jp_iff_map (jp : List Char → Except (List Char) Json) :
    ∀ (L : List (List Char)) (rs : List Json),
      List.Forall₂ (fun l r => jp l = .ok r) L rs ↔
        L.map jp = rs.map Except.ok := by
  intro L
  induction L with
  | nil =>
    intro rs
    cases rs <;> simp
  | cons l ls ih =>
    intro rs
    cases rs with
    | nil => simp
    | cons r rst => simp [List.forall₂_cons, ih]

lemma parseLines_error (jp : List Char → Except (List Char) Json) :
    ∀ (pre : List (List Char)) (i : Nat) (bad : List Char)
      (rest : List (List Char)) (e : List Char),
      (∀ l ∈ pre, exOk (jp l) = true) → jp bad = .error e →
      parseLines jp i (pre ++ bad :: rest) =
        .error ⟨mkLineLog (i + pre.length) bad e, mkOuterMsg e⟩ := by
  intro pre
  induction pre with
  | nil =>
    intro i bad rest e _ hbad
    simp [parseLines, hbad]
  | cons l ls ih =>
    intro i bad rest e hpre hbad
    obtain ⟨v, hv⟩ : ∃ v, jp l = .ok v := by
      cases hjl : jp l with
      | ok v => exact ⟨v, rfl⟩
      | error er =>
        have := hpre l (List.mem_cons_self _ _)
        rw [hjl] at this
        exact absurd this (by simp [exOk])
    have hrec := ih (i + 1) bad rest e
      (fun x hx => hpre x (List.mem_cons_of_mem _ hx)) hbad
    have hidx : i + 1 + ls.length = i + (l :: ls).length := by
      rw [List.length_cons]
      omega
    rw [hidx] at hrec
    simp [parseLines, hv, hrec]

/- Claim theorems. -/

/-- Claim C1 (amended): for every tool handler except w3_login, an argument
bag failing the tool's zod schema makes the handler raise an error with no
runW3Command invocation (for w3_space_create the error is its unconditional
interactivity error, thrown before validation); w3_login performs no
validation at all, so the original claim fails for it (see the
counterexample). -/
theorem w3_handlers_reject_invalid_args_before_subprocess (t : Tool) (w : World) (a : Option Json)
    (hne : t ≠ Tool.login) (h : argsValid t a = false) :
    isErrResult (runTool t w a) = true ∧ (runTool t w a).commands = [] := by
  cases t
  case login => exact absurd rfl hne
  case spaceCreate => exact ⟨rfl, rfl⟩
  case openTool =>
    have hv := exceptUnit_error (vW3Open a) (by simpa [argsValid, exOk] using h)
    simp [runTool, handleW3Open, hv, isErrResult]
  all_goals exact stdTool_reject _ _ _ _ w a (by simpa [argsValid] using h)

/-- Claim C1 counterexample: the arguments `none` (undefined) violate
W3LoginArgsSchema, yet the w3_login handler runs its subprocess and throws no
validation error, so "runW3Command is never invoked" fails as stated. -/
theorem w3_login_runs_subprocess_without_validation_cex :
    argsValid Tool.login none = false ∧
      (runTool Tool.login wC1 none).commands = [sLogin ++ emailEx] ∧
      (runTool Tool.login wC1 none).commands ≠ [] :=
  ⟨by decide, by decide, by decide⟩

theorem w3_handlers_reject_invalid_args_before_subprocess_witness :
    isErrResult (runTool Tool.spaceUse wC1 none) = true ∧
      (runTool Tool.spaceUse wC1 none).commands = [] :=
  w3_handlers_reject_invalid_args_before_subprocess Tool.spaceUse wC1 none (by decide) (by decide)

/-- Claim C2: for a JSON.parse that is insensitive to leading/trailing
whitespace (as the builtin is), if every non-blank line of the input parses,
parseNdJson returns exactly one parsed record per non-blank input line, in
input order (Forall₂ pairs the i-th non-blank line with the i-th record);
blank and whitespace-only lines contribute nothing. -/
theorem parseNdJson_one_record_per_nonblank_line (jp : List Char → Except (List Char) Json)
    (h1 : ∀ l, jp (trimLeft l) = jp l) (h2 : ∀ l, jp (trimRight l) = jp l)
    (nd : List Char)
    (h : ∀ l ∈ (splitNl nd).filter nonBlank, exOk (jp l) = true) :
    ∃ rs, parseNdJson jp nd = .ok rs ∧
      List.Forall₂ (fun l r => jp l = .ok r) ((splitNl nd).filter nonBlank) rs := by
  have hmap : ((splitNl (trimS nd)).filter nonBlank).map jp =
      ((splitNl nd).filter nonBlank).map jp := trim_filter_map jp h1 h2 nd
  have hM : ∀ l ∈ (splitNl (trimS nd)).filter nonBlank, exOk (jp l) = true := by
    intro l hl
    have hmem : jp l ∈ ((splitNl (trimS nd)).filter nonBlank).map jp :=
      List.mem_map_of_mem jp hl
    rw [hmap] at hmem
    obtain ⟨l2, hl2, heq⟩ := List.mem_map.mp hmem
    rw [← heq]
    exact h l2 hl2
  obtain ⟨rs, hok, hf⟩ := parseLines_ok jp _ 0 hM
  refine ⟨rs, hok, ?_⟩
  rw [forall2_jp_iff_map, ← hmap]
  exact (forall2_jp_iff_map jp _ rs).mp hf

theorem parseNdJson_one_record_per_nonblank_line_witness :
    ∃ rs, parseNdJson cjpNull ndC2Ex = .ok rs ∧
      List.Forall₂ (fun l r => cjpNull l = .ok r)
        ((splitNl ndC2Ex).filter nonBlank) rs :=
  parseNdJson_one_record_per_nonblank_line cjpNull (fun _ => rfl) (fun _ => rfl) ndC2Ex (by decide)

/-- Claim C3 (amended): when the first failing non-blank line is reached,
parseNdJson raises an error (no partial record list); the logged error report
contains the first 100 characters of the offending line — the whole line
whenever it has at most 100 characters — while longer lines are truncated
(see the counterexample), and the thrown Error wraps only the parser
message. -/
theorem parseNdJson_malformed_line_rejects_batch (jp : List Char → Except (List Char) Json) (nd : List Char)
    (pre : List (List Char)) (bad : List Char) (rest : List (List Char))
    (e : List Char)
    (hsplit : (splitNl (trimS nd)).filter nonBlank = pre ++ bad :: rest)
    (hpre : ∀ l ∈ pre, exOk (jp l) = true)
    (hbad : jp bad = .error e) :
    parseNdJson jp nd = .error ⟨mkLineLog pre.length bad e, mkOuterMsg e⟩ ∧
      containsSub (bad.take 100) (mkLineLog pre.length bad e) = true ∧
      (bad.length ≤ 100 → containsSub bad (mkLineLog pre.length bad e) = true) := by
  have hcont : containsSub (bad.take 100) (mkLineLog pre.length bad e) = true := by
    unfold mkLineLog jsTrunc
    simp only [List.append_assoc]
    refine containsSub_append_left _ _ _ ?_
    refine containsSub_append_left _ _ _ ?_
    refine containsSub_append_left _ _ _ ?_
    refine containsSub_append_left _ _ _ ?_
    refine containsSub_append_left _ _ _ ?_
    exact containsSub_self_append _ _
  refine ⟨?_, hcont, fun hlen => ?_⟩
  · unfold parseNdJson
    rw [hsplit]
    have hrec := parseLines_error jp pre 0 bad rest e hpre hbad
    simpa using hrec
  · rwa [List.take_of_length_le hlen] at hcont

set_option maxRecDepth 4000 in
/-- Claim C3 counterexample: for a malformed line of 101 characters, neither
the logged line report nor the thrown error message contains the full line
content, so "the error report includes the content of the offending line"
fails as stated. -/
theorem parseNdJson_error_report_truncates_long_line_cex :
    parseNdJson cjpErr longLine =
        .error ⟨mkLineLog 0 longLine sBoom, mkOuterMsg sBoom⟩ ∧
      containsSub longLine (mkLineLog 0 longLine sBoom) = false ∧
      containsSub longLine (mkOuterMsg sBoom) = false :=
  ⟨rfl, by decide, by decide⟩

theorem parseNdJson_malformed_line_rejects_batch_witness :
    parseNdJson cjpSel ndC3Ex =
        .error ⟨mkLineLog [sOkLine].length sBadLine sBoom, mkOuterMsg sBoom⟩ ∧
      containsSub (sBadLine.take 100)
        (mkLineLog [sOkLine].length sBadLine sBoom) = true ∧
      (sBadLine.length ≤ 100 →
        containsSub sBadLine (mkLineLog [sOkLine].length sBadLine sBoom) = true) :=
  parseNdJson_malformed_line_rejects_batch cjpSel ndC3Ex [sOkLine] sBadLine [] sBoom (by decide) (by decide) rfl

/-- Claim C4 (amended): every tool invocation spawns at most one subprocess;
handlers other than w3_open and w3_space_create spawn exactly one (awaited,
as modeled by sequencing) when their arguments validate, but w3_open and
w3_space_create spawn none, so "exactly one subprocess per call" fails as
stated (see the counterexample). -/
theorem tool_handlers_spawn_at_most_one_subprocess (t : Tool) (w : World) (a : Option Json) :
    (runTool t w a).commands.length ≤ 1 ∧
      ((t = Tool.openTool ∨ t = Tool.spaceCreate) →
        (runTool t w a).commands = []) ∧
      (argsValid t a = true → t ≠ Tool.openTool → t ≠ Tool.spaceCreate →
        (runTool t w a).commands.length = 1) := by
  cases t
  case login =>
    refine ⟨?_, ?_, ?_⟩
    · rw [show runTool Tool.login w a = handleW3Login w a from rfl,
        handleW3Login_commands]
      simp
    · rintro (h | h) <;> exact Tool.noConfusion h
    · intro _ _ _
      rw [show runTool Tool.login w a = handleW3Login w a from rfl,
        handleW3Login_commands]
      simp
  case openTool =>
    refine ⟨?_, ?_, ?_⟩
    · rw [show runTool Tool.openTool w a = handleW3Open w a from rfl,
        handleW3Open_commands]
      simp
    · intro _
      rw [show runTool Tool.openTool w a = handleW3Open w a from rfl,
        handleW3Open_commands]
    · intro _ hno _
      exact absurd rfl hno
  case spaceCreate =>
    exact ⟨by simp [runTool, handleW3SpaceCreate], fun _ => rfl,
      fun _ _ hns => absurd rfl hns⟩
  all_goals
    exact ⟨(stdTool_c4 _ _ _ _ w a).1,
      by rintro (h | h) <;> exact Tool.noConfusion h,
      fun hv _ _ => (stdTool_c4 _ _ _ _ w a).2 (by simpa [argsValid] using hv)⟩

/-- Claim C4 counterexample: a valid w3_open invocation reaches its handler,
returns a successful response, and spawns zero subprocesses. -/
theorem w3_open_spawns_zero_subprocesses_cex :
    argsValid Tool.openTool argsOpenEx = true ∧
      (runTool Tool.openTool wC1 argsOpenEx).commands = [] ∧
      isErrResult (runTool Tool.openTool wC1 argsOpenEx) = false :=
  ⟨by decide, by decide, by decide⟩

theorem tool_handlers_spawn_at_most_one_subprocess_witness :
    (runTool Tool.up wC1 argsUpEx).commands.length ≤ 1 ∧
      (runTool Tool.up wC1 argsUpEx).commands.length = 1 ∧
      (runTool Tool.openTool wC1 argsOpenEx).commands = [] :=
  ⟨(tool_handlers_spawn_at_most_one_subprocess Tool.up wC1 argsUpEx).1,
   (tool_handlers_spawn_at_most_one_subprocess Tool.up wC1 argsUpEx).2.2 (by decide) (by decide) (by decide),
   (tool_handlers_spawn_at_most_one_subprocess Tool.openTool wC1 argsOpenEx).2.1 (Or.inl rfl)⟩

/-- Claim C5: when the space-listing subprocess prints exactly
`did:key:abc  my-space` followed by a newline, the w3_space_ls handler
returns exactly one record {did: "did:key:abc", name: "my-space",
isCurrent: false} (and one subprocess call). -/
theorem w3_space_ls_single_line_single_record (w : World)
    (h : w.exec (sW3Sp ++ sSpaceLs) = ExecResult.success sampleLsOut []) :
    runTool Tool.spaceLs w (some (Json.obj [])) =
      ⟨.ok (Json.obj [(kSpaces, Json.arr [Json.obj [(kDid, Json.str sDidAbc),
        (kName, Json.str sMySpace), (kIsCurrent, Json.bool false)]])]),
        [sSpaceLs]⟩ := by
  have h1 : runW3Command w.exec sSpaceLs = .ok (sampleLsOut, []) := by
    unfold runW3Command
    rw [h]
  show handleW3SpaceLs w (some (Json.obj [])) = _
  unfold handleW3SpaceLs stdTool
  simp only [show vW3SpaceLs (some (Json.obj [])) = Except.ok () from rfl, h1]
  rfl

theorem w3_space_ls_single_line_single_record_witness :
    runTool Tool.spaceLs wLs (some (Json.obj [])) =
      ⟨.ok (Json.obj [(kSpaces, Json.arr [Json.obj [(kDid, Json.str sDidAbc),
        (kName, Json.str sMySpace), (kIsCurrent, Json.bool false)]])]),
        [sSpaceLs]⟩ :=
  w3_space_ls_single_line_single_record wLs rfl

/-- Claim C6: a listing line whose trimmed form starts with `*` yields a
record extracted from the line with the leading `*` stripped (and re-trimmed)
before DID/name extraction, and any record produced from such a line has
isCurrent = true. -/
theorem w3_space_ls_star_line_marks_current (line : List Char) (h : isPrefOf sStar (trimS line) = true) :
    spaceEntryOfLine line = entryCore true (trimS ((trimS line).drop 1)) ∧
      ∀ e : SpaceEntry, spaceEntryOfLine line = some e → e.isCurrent = true := by
  have hne : (trimS line).isEmpty = false := by
    cases htl : trimS line with
    | nil =>
      rw [htl] at h
      simp [isPrefOf, sStar] at h
    | cons c cs => rfl
  have heq : spaceEntryOfLine line = entryCore true (trimS ((trimS line).drop 1)) := by
    unfold spaceEntryOfLine
    simp only [hne, Bool.false_eq_true, if_false, h, if_true]
  refine ⟨heq, ?_⟩
  intro e he
  rw [heq] at he
  exact (entryCore_some true _ e he).1

theorem w3_space_ls_star_line_marks_current_witness :
    spaceEntryOfLine starLineEx =
        entryCore true (trimS ((trimS starLineEx).drop 1)) ∧
      ∀ e : SpaceEntry, spaceEntryOfLine starLineEx = some e →
        e.isCurrent = true :=
  w3_space_ls_star_line_marks_current starLineEx (by decide)

/-- Claim C7: when the subprocess fails (non-zero exit or spawn failure),
runW3Command raises an error whose message contains the underlying failure
message and, when stderr was captured (non-empty), the stderr text; it never
returns a stdout/stderr pair in that case. -/
theorem runW3Command_failure_wraps_message_and_stderr (exec : List Char → ExecResult) (cmd msg st : List Char)
    (h : exec (sW3Sp ++ cmd) = ExecResult.failure msg st) :
    ∃ E, runW3Command exec cmd = .error E ∧ containsSub msg E = true ∧
      (st ≠ [] → containsSub st E = true) := by
  cases st with
  | nil =>
    refine ⟨_, runW3Command_failure_eq exec cmd msg [] h, ?_, ?_⟩
    · show containsSub msg (sFail1 ++ cmd ++ sFail2 ++ msg) = true
      exact containsSub_append_left _ _ _ (containsSub_self msg)
    · intro hne
      exact absurd rfl hne
  | cons c0 cs0 =>
    refine ⟨_, runW3Command_failure_eq exec cmd msg (c0 :: cs0) h, ?_, ?_⟩
    · show containsSub msg
        (sFail1 ++ cmd ++ sFail2 ++ (msg ++ sStderrNl ++ (c0 :: cs0))) = true
      refine containsSub_append_left _ _ _ ?_
      rw [List.append_assoc]
      exact containsSub_self_append _ _
    · intro _
      show containsSub (c0 :: cs0)
        (sFail1 ++ cmd ++ sFail2 ++ (msg ++ sStderrNl ++ (c0 :: cs0))) = true
      refine containsSub_append_left _ _ _ ?_
      exact containsSub_append_left _ _ _ (containsSub_self _)

theorem runW3Command_failure_wraps_message_and_stderr_witness :
    ∃ E, runW3Command wFailEx.exec sReset = .error E ∧
      containsSub sBoom E = true ∧ (sBoom ≠ [] → containsSub sBoom E = true) :=
  runW3Command_failure_wraps_message_and_stderr wFailEx.exec sReset sBoom sBoom rfl

/-- Claim C8 (amended): every record produced by the w3_space_ls line parser
has a did starting with "did:key:", and a line is silently dropped whenever
the first whitespace-separated token of its trimmed, star-stripped form does
not start with "did:key:"; judging by the first token of the raw line is
wrong for `*`-prefixed lines (see the counterexample). -/
theorem w3_space_ls_did_key_filter (stdout : List Char) :
    (∀ e ∈ parseSpaces stdout, isPrefOf sDidKey e.did = true) ∧
      ∀ line : List Char,
        isPrefOf sDidKey ((splitWs (starStrip (trimS line))).headD []) = false →
        spaceEntryOfLine line = none := by
  constructor
  · intro e he
    obtain ⟨line, _, hline⟩ := List.mem_filterMap.mp he
    simp only [spaceEntryOfLine] at hline
    split at hline
    · exact absurd hline (by simp)
    · split at hline
      · exact (entryCore_some _ _ _ hline).2
      · exact (entryCore_some _ _ _ hline).2
  · intro line h
    simp only [spaceEntryOfLine]
    split
    · rfl
    · unfold starStrip at h
      split
      · next hstar =>
        rw [if_pos hstar] at h
        exact entryCore_none _ _ h
      · next hstar =>
        rw [if_neg hstar] at h
        exact entryCore_none _ _ h

theorem w3_space_ls_did_key_filter_witness :
    spaceEntryOfLine sBadLine = none ∧
      isPrefOf sDidKey (SpaceEntry.did ⟨sDidAbc, some sMySpace, false⟩) = true :=
  ⟨(w3_space_ls_did_key_filter sampleLsOut).2 sBadLine (by decide),
   (w3_space_ls_did_key_filter sampleLsOut).1 ⟨sDidAbc, some sMySpace, false⟩ (by decide)⟩

/-- Claim C8 counterexample: the line `* did:key:abc my-space` has first
whitespace-separated token `*`, which does not start with "did:key:", yet it
is not dropped — it produces a record. -/
theorem w3_space_ls_star_line_first_token_cex :
    ((splitWs starLineEx).headD []) = sStar ∧
      isPrefOf sDidKey ((splitWs starLineEx).headD []) = false ∧
      spaceEntryOfLine starLineEx = some ⟨sDidAbc, some sMySpace, true⟩ := by
  exact ⟨by decide, by decide, by decide⟩

/-- Claim C9: on input that is empty or consists only of whitespace and blank
lines, parseNdJson returns the empty list and raises no error. -/
theorem parseNdJson_blank_input_yields_empty_list (jp : List Char → Except (List Char) Json) (nd : List Char)
    (h : nd.all isWs = true) : parseNdJson jp nd = .ok [] := by
  have h1 : trimLeft nd = [] := by
    rw [trimLeft, List.dropWhile_eq_nil_iff]
    intro x hx
    exact List.all_eq_true.mp h x hx
  unfold parseNdJson trimS
  rw [h1]
  rfl

theorem parseNdJson_blank_input_yields_empty_list_witness : parseNdJson cjpErr sBlankEx = .ok [] :=
  parseNdJson_blank_input_yields_empty_list cjpErr sBlankEx (by decide)

/-- Claim C10: the tool names the ListTools handler derives from the exported
argument-schema names (insert `_` before capitals, drop `_Args_Schema`,
lowercase, drop the leading underscore) are exactly the keys of the
toolHandlers map, in order; hence every advertised tool dispatches to a
handler and every handler is advertised. -/
theorem derived_tool_names_equal_handler_keys : schemaNames.map toolNameOf = toolHandlersKeys := by decide
